import Mathlib

/-!
# STM32F4 dongle lock

A shallow embedding of `main.c`: the UART line assembler
(`HAL_UART_RxCpltCallback`), the command dispatcher (`process_command`,
`send_message`) and the LED renderer (`leds_update`, `check_led_timeout`),
followed by the properties proved about them.

Conventions of the embedding:

* a `char` buffer is a `List Char`; the C string it holds ends at the first
  `NUL` (or at the end of the list, which reads as `NUL`);
* `uint32_t` tick values are natural numbers and the subtraction of two ticks
  is taken modulo `2 ^ 32`;
* the hardware collaborators (UART transmit, LCD, GPIO port B, `HAL_Delay`)
  are recorded in the device state: every call appends to a log or updates the
  port's output register.
-/

namespace DongleLock

/-! ## Characters and C strings -/

/-- The string terminator of C. -/
def NUL : Char := Char.ofNat 0

/-- Line feed. -/
def LF : Char := '\n'

/-- Carriage return. -/
def CR : Char := '\r'

/-- Characters of the C string held at the start of a buffer. -/
def cstr (p : List Char) : List Char :=
  p.takeWhile (fun c => c != NUL)

/-- Printable ASCII characters: codes 32 to 126. -/
def printable (c : Char) : Prop :=
  32 ≤ c.toNat ∧ c.toNat ≤ 126

instance : DecidablePred printable :=
  fun c => inferInstanceAs (Decidable (32 ≤ c.toNat ∧ c.toNat ≤ 126))

/-- Libc `strncmp`: compares at most `n` characters, stopping at a terminator. -/
def strncmp : List Char → List Char → Nat → Int
  | _, _, 0 => 0
  | a, b, n + 1 =>
    let x := a.headD NUL
    let y := b.headD NUL
    if x != y then (x.toNat : Int) - (y.toNat : Int)
    else if x == NUL then 0
    else strncmp a.tail b.tail n

/-- Libc `strcmp`: `strncmp` without a bound (the bound used here is never reached). -/
def strcmp (a b : List Char) : Int :=
  strncmp a b (a.length + 1)

/-- Libc `strchr`: the buffer from the first occurrence of `c` on, when there is one
before the terminator. -/
def strchr : List Char → Char → Option (List Char)
  | [], c => if c == NUL then some [] else none
  | x :: xs, c =>
    if x == c then some (x :: xs)
    else if x == NUL then none
    else strchr xs c

/-- The `n` bytes that `strncpy` writes: the characters of the source string, then
`NUL` padding. -/
def strncpy_bytes : List Char → Nat → List Char
  | _, 0 => []
  | [], n + 1 => List.replicate (n + 1) NUL
  | c :: cs, n + 1 =>
    if c == NUL then List.replicate (n + 1) NUL else c :: strncpy_bytes cs n

/-- Libc `strncpy` into the buffer `dst`: the first `n` bytes are overwritten. -/
def strncpy (dst src : List Char) (n : Nat) : List Char :=
  strncpy_bytes src n ++ dst.drop n

/-- Conversion `%d` of `printf`. -/
def fmt_d (n : Int) : List Char :=
  if n < 0 then '-' :: Nat.toDigits 10 n.natAbs else Nat.toDigits 10 n.toNat

/-- Libc `snprintf` into a buffer of `size` bytes, given the fully formatted text:
the string left in the buffer (at most `size - 1` characters) and the return value
(the length of the full text). -/
def snprintf (size : Nat) (text : List Char) : List Char × Int :=
  (text.take (size - 1), (text.length : Int))

/-! ## Constants of `main.c` -/

/-- Blink half-period in milliseconds. -/
def BLINK_INTERVAL : Nat := 500

/-- Pins 0 to 7 of port B. -/
def LED_PINS : Nat := 1 ||| 2 ||| 4 ||| 8 ||| 16 ||| 32 ||| 64 ||| 128

/-- Longest stored code. -/
def MAX_CODE_LENGTH : Nat := 19

/-- Size of the receive buffer. -/
def RX_BUFFER_SIZE : Nat := 64

/-- Milliseconds after which `Single` falls back to the idle mode. -/
def CMD_TIMEOUT : Nat := 3000

/-- Difference of two `uint32_t` values. -/
def u32_sub (a b : Nat) : Nat :=
  (a % 2 ^ 32 + 2 ^ 32 - b % 2 ^ 32) % 2 ^ 32

/-! ## Device state -/

/-- LED modes, as the `enum` of `main.c`. -/
inductive LED_Mode where
  | LED_MODE_NONE
  | LED_MODE_ALL_ON
  | LED_MODE_BLINK_ALL
  | LED_MODE_BLINK_ODD
  | LED_MODE_SINGLE
  deriving DecidableEq, Repr

/-- Commands of the character display used by `process_command`. -/
inductive LcdCmd where
  | CLEAR
  | LINE_TWO
  deriving DecidableEq, Repr

/-- One call into the display driver. -/
inductive LcdOp where
  | command (c : LcdCmd)
  | putstring (text : List Char)
  deriving DecidableEq, Repr

/-- The globals of `main.c` read or written by the dispatcher and the renderer,
with the observable effects on the collaborators. -/
structure Device where
  /-- The three 20-byte slots `access_code[3][MAX_CODE_LENGTH + 1]`. -/
  access_code : Fin 3 → List Char
  led_mode : LED_Mode
  idle_led_mode : LED_Mode
  single_led : Nat
  last_toggle : Nat
  last_cmd_time : Nat
  blink_state : Nat
  /-- Output register of port B; bit `i` drives LED `i` for `i < 8`. -/
  gpiob : Nat
  /-- Bytes handed to `HAL_UART_Transmit`, one entry per call. -/
  uart_tx : List (List Char)
  /-- Calls into the display driver, in order. -/
  lcd : List LcdOp
  /-- Calls of `HAL_Delay`: the duration and the port B output shown meanwhile. -/
  pauses : List (Nat × Nat)

/-- The shared state of the receive handler and the main loop. -/
structure Rx where
  rx_buffer : List Char
  rx_index : Nat
  cmd_ready : Nat

/-- Static initialisers of the device globals. -/
def Device.power_on : Device where
  access_code := fun _ => List.replicate (MAX_CODE_LENGTH + 1) NUL
  led_mode := LED_Mode.LED_MODE_NONE
  idle_led_mode := LED_Mode.LED_MODE_BLINK_ALL
  single_led := 0
  last_toggle := 0
  last_cmd_time := 0
  blink_state := 0
  gpiob := 0
  uart_tx := []
  lcd := []
  pauses := []

/-- Static initialisers of the receive globals. -/
def Rx.power_on : Rx where
  rx_buffer := List.replicate RX_BUFFER_SIZE NUL
  rx_index := 0
  cmd_ready := 0

/-! ## Collaborators -/

/-- HAL pin write on port B: a set raises exactly the bits of `pin`, a reset clears
exactly the bits of `pin`. -/
def HAL_GPIO_WritePin (pin : Nat) (level : Bool) (s : Device) : Device :=
  if level then { s with gpiob := s.gpiob ||| pin }
  else { s with gpiob := s.gpiob ^^^ (s.gpiob &&& pin) }

/-- Blocking pause: nothing changes; the port output shown during it is logged. -/
def HAL_Delay (ms : Nat) (s : Device) : Device :=
  { s with pauses := s.pauses ++ [(ms, s.gpiob)] }

/-- Display command. -/
def lcd_command (c : LcdCmd) (s : Device) : Device :=
  { s with lcd := s.lcd ++ [LcdOp.command c] }

/-- Display text. -/
def lcd_putstring (text : List Char) (s : Device) : Device :=
  { s with lcd := s.lcd ++ [LcdOp.putstring (cstr text)] }

/-- Blocking transmit of `len` bytes of `buf`. -/
def HAL_UART_Transmit (buf : List Char) (len : Nat) (s : Device) : Device :=
  { s with uart_tx := s.uart_tx ++ [buf.take len] }

/-! ## LED control -/

/-- Source: `leds_all_on`. -/
def leds_all_on (s : Device) : Device :=
  HAL_GPIO_WritePin LED_PINS true s

/-- Source: `leds_all_off`. -/
def leds_all_off (s : Device) : Device :=
  HAL_GPIO_WritePin LED_PINS false s

/-- Source: `leds_set`. -/
def leds_set (pin : Nat) (s : Device) : Device :=
  let s := leds_all_off s
  if pin < 8 then HAL_GPIO_WritePin (1 <<< pin) true s else s

/-- Logical negation of a `uint8_t`, as `!x` in C. -/
def lnot (x : Nat) : Nat :=
  if x = 0 then 1 else 0

/-- Source: `leds_blink_all`, with `now` the value of `HAL_GetTick()`. -/
def leds_blink_all (now : Nat) (s : Device) : Device :=
  if u32_sub now s.last_toggle ≥ BLINK_INTERVAL then
    let s := { s with blink_state := lnot s.blink_state }
    let s := if s.blink_state ≠ 0 then leds_all_on s else leds_all_off s
    { s with last_toggle := now }
  else s

/-- Body of the `for` loop of `leds_blink_odd` for one index `i`. -/
def blink_odd_pin (s : Device) (i : Nat) : Device :=
  if i % 2 = 1 then HAL_GPIO_WritePin (1 <<< i) (s.blink_state ≠ 0) s
  else HAL_GPIO_WritePin (1 <<< i) false s

/-- Source: `leds_blink_odd`, with `now` the value of `HAL_GetTick()`. -/
def leds_blink_odd (now : Nat) (s : Device) : Device :=
  if u32_sub now s.last_toggle ≥ BLINK_INTERVAL then
    let s := { s with blink_state := lnot s.blink_state }
    let s := (List.range 8).foldl blink_odd_pin s
    { s with last_toggle := now }
  else s

/-- Source: `leds_update`. -/
def leds_update (now : Nat) (s : Device) : Device :=
  match s.led_mode with
  | LED_Mode.LED_MODE_ALL_ON => leds_all_on s
  | LED_Mode.LED_MODE_BLINK_ALL => leds_blink_all now s
  | LED_Mode.LED_MODE_BLINK_ODD => leds_blink_odd now s
  | LED_Mode.LED_MODE_SINGLE => leds_set s.single_led s
  | LED_Mode.LED_MODE_NONE => leds_all_off s

/-- Source: `check_led_timeout`, with `now` the value of `HAL_GetTick()`. -/
def check_led_timeout (now : Nat) (s : Device) : Device :=
  if s.led_mode = LED_Mode.LED_MODE_SINGLE ∧ u32_sub now s.last_cmd_time ≥ CMD_TIMEOUT then
    { s with led_mode := s.idle_led_mode }
  else s

/-! ## UART receive handler -/

/-- Source: `HAL_UART_RxCpltCallback` for USART1, with `byte` the received byte. -/
def HAL_UART_RxCpltCallback (byte : Char) (r : Rx) : Rx :=
  if byte = CR ∨ byte = LF then
    if r.rx_index > 0 then
      { rx_buffer := r.rx_buffer.set r.rx_index NUL, cmd_ready := 1, rx_index := 0 }
    else r
  else if r.rx_index < RX_BUFFER_SIZE - 1 then
    { r with rx_buffer := r.rx_buffer.set r.rx_index byte, rx_index := r.rx_index + 1 }
  else
    { r with rx_index := 0 }

/-- The handler run on a sequence of received bytes, first byte first. -/
def receive (bytes : List Char) (r : Rx) : Rx :=
  bytes.foldl (fun r b => HAL_UART_RxCpltCallback b r) r

/-! ## UART send -/

/-- Source: `send_message`. -/
def send_message (msg : List Char) (s : Device) : Device :=
  let out := snprintf 80 (cstr msg ++ [LF])
  let temp := out.1
  let len := out.2
  if 0 < len ∧ len < 80 then HAL_UART_Transmit temp len.toNat s else s

/-! ## Command handler -/

/-- The slot selector `cmd[9] - '1'` as a C `int`. -/
def slot_int (cmd : List Char) : Int :=
  ((cmd.getD 9 NUL).toNat : Int) - (('1').toNat : Int)

/-- Branch `CONNECT` of `process_command`. -/
def cmd_connect (s : Device) : Device :=
  let s := send_message "OK".toList s
  let s := lcd_putstring "Connected".toList s
  let s := lcd_command LcdCmd.LINE_TWO s
  let s := lcd_putstring "UART OK".toList s
  let s := { s with led_mode := LED_Mode.LED_MODE_ALL_ON }
  let s := { s with idle_led_mode := LED_Mode.LED_MODE_BLINK_ALL }
  let s := HAL_Delay 1000 s
  { s with led_mode := s.idle_led_mode }

/-- The slot `access_code[i]` addressed by an index that passed the range check. -/
def slot_ref (i : Int) (h : 0 ≤ i ∧ i < 3) : Fin 3 :=
  ⟨i.toNat, by omega⟩

/-- Branch `GET_CODE_` of `process_command`, with `i` the value of `cmd[9] - '1'`. -/
def cmd_get_code (i : Int) (s : Device) : Device :=
  if h : 0 ≤ i ∧ i < 3 then
    let code := s.access_code (slot_ref i h)
    let msg := (snprintf 50 ("CODE_".toList ++ fmt_d (i + 1) ++ ":".toList ++ cstr code)).1
    let s := send_message msg s
    let s := lcd_putstring "GET CODE".toList s
    let s := lcd_command LcdCmd.LINE_TWO s
    let shown := if code.headD NUL ≠ NUL then code else "Empty".toList
    let display :=
      (snprintf 17 ("Slot ".toList ++ fmt_d (i + 1) ++ ": ".toList ++ (cstr shown).take 10)).1
    let s := lcd_putstring display s
    let s := { s with single_led := (i + 1).toNat % 256 }
    { s with led_mode := LED_Mode.LED_MODE_SINGLE }
  else
    let s := send_message "ERR:INVALID_SLOT".toList s
    let s := lcd_putstring "ERROR".toList s
    let s := lcd_command LcdCmd.LINE_TWO s
    lcd_putstring "Invalid Slot".toList s

/-- Branch `SET_CODE_` of `process_command`, with `i` the value of `cmd[9] - '1'` and
`value` the result of `strchr(cmd, ':')`. -/
def cmd_set_code (i : Int) (value : Option (List Char)) (s : Device) : Device :=
  if h : (0 ≤ i ∧ i < 3) ∧ value.isSome then
    let value := (value.get h.2).tail
    let code := strncpy (s.access_code (slot_ref i h.1)) value MAX_CODE_LENGTH
    let code := code.set MAX_CODE_LENGTH NUL
    let s := { s with access_code := Function.update s.access_code (slot_ref i h.1) code }
    let s := send_message "SAVED".toList s
    let s := lcd_putstring "SET CODE".toList s
    let s := lcd_command LcdCmd.LINE_TWO s
    let display := (snprintf 17 ("Slot ".toList ++ fmt_d (i + 1) ++ " Saved".toList)).1
    let s := lcd_putstring display s
    let s := { s with single_led := i.toNat % 256 }
    { s with led_mode := LED_Mode.LED_MODE_SINGLE }
  else
    let s := send_message "ERR:INVALID_FORMAT".toList s
    let s := lcd_putstring "ERROR".toList s
    let s := lcd_command LcdCmd.LINE_TWO s
    lcd_putstring "Bad Format".toList s

/-- Branch `DISCONNECT` of `process_command`. -/
def cmd_disconnect (s : Device) : Device :=
  let s := send_message "BYE".toList s
  let s := lcd_putstring "Disconnected".toList s
  let s := lcd_command LcdCmd.LINE_TWO s
  let s := lcd_putstring "Bye".toList s
  let s := leds_all_on s
  let s := HAL_Delay 1000 s
  let s := leds_all_off s
  let s := { s with led_mode := LED_Mode.LED_MODE_NONE }
  { s with idle_led_mode := LED_Mode.LED_MODE_NONE }

/-- The counting loop of the `STATUS` branch: slots whose first byte is not `NUL`. -/
def stored_count (s : Device) : Int :=
  (List.finRange 3).foldl
    (fun stored i => if (s.access_code i).headD NUL ≠ NUL then stored + 1 else stored) 0

/-- Branch `STATUS` of `process_command`. -/
def cmd_status (s : Device) : Device :=
  let stored := stored_count s
  let msg := (snprintf 80 ("STATUS:OK,CODES:".toList ++ fmt_d stored ++ "/3".toList)).1
  let s := send_message msg s
  let s := lcd_putstring "Status Check".toList s
  let s := lcd_command LcdCmd.LINE_TWO s
  let msg := (snprintf 80 (fmt_d stored ++ " codes stored".toList)).1
  lcd_putstring msg s

/-- Final `else` branch of `process_command`. -/
def cmd_unknown (s : Device) : Device :=
  let s := send_message "ERR:UNKNOWN_CMD".toList s
  let s := lcd_putstring "CMD ERR".toList s
  let s := lcd_command LcdCmd.LINE_TWO s
  let s := lcd_putstring "Unknown Command".toList s
  { s with led_mode := LED_Mode.LED_MODE_BLINK_ODD }

/-- The two statements at the entry of `process_command`. -/
def command_entry (now : Nat) (s : Device) : Device :=
  let s := lcd_command LcdCmd.CLEAR s
  { s with last_cmd_time := now }

/-- Source: `process_command`, with `now` the value of `HAL_GetTick()` at entry. -/
def process_command (now : Nat) (cmd : List Char) (s : Device) : Device :=
  let s := command_entry now s
  if strcmp cmd "CONNECT".toList = 0 then cmd_connect s
  else if strncmp cmd "GET_CODE_".toList 9 = 0 then cmd_get_code (slot_int cmd) s
  else if strncmp cmd "SET_CODE_".toList 9 = 0 then cmd_set_code (slot_int cmd) (strchr cmd ':') s
  else if strcmp cmd "DISCONNECT".toList = 0 then cmd_disconnect s
  else if strcmp cmd "STATUS".toList = 0 then cmd_status s
  else cmd_unknown s

/-! ## Main loop -/

/-- The prelude of `main` before the loop. -/
def main_init (s : Device) : Device :=
  let s := leds_all_on s
  let s := { s with led_mode := LED_Mode.LED_MODE_ALL_ON }
  let s := HAL_Delay 1000 s
  send_message "STM Ready".toList s

/-- The copy made by the main loop inside its critical section:
`strncpy(local_buffer, rx_buffer, 63); local_buffer[63] = 0`, for a 64-byte
`local_buffer` with previous contents `previous`. -/
def copy_command (previous : List Char) (r : Rx) : List Char :=
  (strncpy previous r.rx_buffer (RX_BUFFER_SIZE - 1)).set (RX_BUFFER_SIZE - 1) NUL

/-- State of the device at the start of the main loop. -/
def Device.boot : Device :=
  main_init Device.power_on

/-- A sequence of commands dispatched in order, each with the tick at its entry. -/
def dispatch_all (cmds : List (Nat × List Char)) (s : Device) : Device :=
  cmds.foldl (fun s c => process_command c.1 c.2 s) s

/-- The state seen by the main loop: its `local_buffer`, the receive globals and the
device globals. -/
structure Board where
  local_buffer : List Char
  rx : Rx
  dev : Device

/-- One iteration of the `while (1)` loop of `main`; `t_cmd`, `t_led` and `t_chk` are the
values of `HAL_GetTick()` read by `process_command`, by the blink routine and by
`check_led_timeout` in this iteration. -/
def main_loop_body (t_cmd t_led t_chk : Nat) (b : Board) : Board :=
  let b :=
    if b.rx.cmd_ready ≠ 0 then
      let local_buffer := copy_command b.local_buffer b.rx
      let rx := { b.rx with cmd_ready := 0 }
      { local_buffer := local_buffer, rx := rx,
        dev := process_command t_cmd local_buffer b.dev }
    else b
  let dev := leds_update t_led b.dev
  let dev := check_led_timeout t_chk dev
  let dev := HAL_Delay 10 dev
  { b with dev := dev }

/-- Device states that agree on everything rendering must not touch: they may differ in
the port output, the blink phase and the toggle time only. -/
def render_frame (s t : Device) : Prop :=
  t.access_code = s.access_code ∧ t.led_mode = s.led_mode ∧
    t.idle_led_mode = s.idle_led_mode ∧ t.single_led = s.single_led ∧
    t.last_cmd_time = s.last_cmd_time ∧ t.uart_tx = s.uart_tx ∧ t.lcd = s.lcd ∧
    t.pauses = s.pauses

/-- Render steps of the main loop at the ticks `ts`, first tick first. -/
def render_all (ts : List Nat) (s : Device) : Device :=
  ts.foldl (fun s t => leds_update t s) s

/-- The number of render steps, among those at the ticks `ts`, that flip the blink phase. -/
def blink_flips : List Nat → Device → Nat
  | [], _ => 0
  | t :: ts, s =>
    (if (leds_update t s).blink_state ≠ s.blink_state then 1 else 0) +
      blink_flips ts (leds_update t s)

/-- The LED bank shows the BlinkOdd picture: LEDs 0, 2, 4, 6 off and LEDs 1, 3, 5, 7 at the
blink phase. -/
def odd_pattern (s : Device) : Prop :=
  ∀ i, i < 8 → s.gpiob.testBit i = (decide (i % 2 = 1) && decide (s.blink_state ≠ 0))

/-- The index of `rx_buffer` that `HAL_UART_RxCpltCallback` writes for the received byte:
the terminator at `rx_index` for a delimiter after at least one byte, the byte itself at
`rx_index` while there is room, and no write otherwise. -/
def rx_write_index (byte : Char) (r : Rx) : Option Nat :=
  if byte = CR ∨ byte = LF then
    if r.rx_index > 0 then some r.rx_index else none
  else if r.rx_index < RX_BUFFER_SIZE - 1 then some r.rx_index
  else none

/-- The LED bank shows the blink phase on all eight LEDs. -/
def all_pattern (s : Device) : Prop :=
  ∀ i, i < 8 → s.gpiob.testBit i = decide (s.blink_state ≠ 0)

/-- The number of render steps, among those at the ticks `ts`, that change the LED bank
(bits 0 to 7 of the port output). -/
def bank_flips : List Nat → Device → Nat
  | [], _ => 0
  | t :: ts, s =>
    (if (leds_update t s).gpiob % 256 ≠ s.gpiob % 256 then 1 else 0) +
      bank_flips ts (leds_update t s)

/-- A command string as `main` hands it to `process_command`: the copy, made by the main
loop into its `local_buffer` (previous contents `previous`), of the `rx_buffer` left by the
bytes received since power-on. The main loop itself never writes `rx_buffer` or `rx_index`,
so the buffer it copies is the one the receive handler built from those bytes. -/
def dispatched_line (cmd : List Char) : Prop :=
  ∃ bytes previous : List Char, cmd = copy_command previous (receive bytes Rx.power_on)

/-! ## Facts about the C string primitives -/

theorem cstr_nil : cstr [] = [] := rfl

theorem cstr_cons (c : Char) (l : List Char) :
    cstr (c :: l) = if c = NUL then [] else c :: cstr l := by
  simp only [cstr, List.takeWhile_cons]
  by_cases h : c = NUL <;> simp [h]

theorem cstr_eq_self {l : List Char} (h : ∀ c ∈ l, c ≠ NUL) : cstr l = l := by
  induction l with
  | nil => rfl
  | cons c l ih =>
    rw [cstr_cons, if_neg (h c (List.mem_cons_self _ _)), ih]
    intro d hd
    exact h d (List.mem_cons_of_mem _ hd)

theorem not_NUL_of_mem_cstr {l : List Char} {c : Char} (h : c ∈ cstr l) : c ≠ NUL := by
  have := List.mem_takeWhile_imp h
  simpa using this

theorem cstr_append_of_head {l r : List Char} (hl : ∀ c ∈ l, c ≠ NUL)
    (hr : r.headD NUL = NUL) : cstr (l ++ r) = l := by
  induction l with
  | nil =>
    cases r with
    | nil => rfl
    | cons x xs =>
      simp only [List.headD_cons] at hr
      simp [cstr_cons, hr]
  | cons c l ih =>
    rw [List.cons_append, cstr_cons, if_neg (hl c (List.mem_cons_self _ _)), ih]
    intro d hd
    exact hl d (List.mem_cons_of_mem _ hd)

theorem cstr_length_le (l : List Char) : (cstr l).length ≤ l.length := by
  induction l with
  | nil => simp [cstr_nil]
  | cons c l ih =>
    rw [cstr_cons]
    split <;> simp
    exact ih

theorem char_eq_of_toNat {a b : Char} (h : a.toNat = b.toNat) : a = b :=
  Char.ext (UInt32.ext (by simpa [Char.toNat, UInt32.toNat] using h))

theorem char_toNat_sub_ne {x y : Char} (h : x ≠ y) : (x.toNat : Int) - (y.toNat : Int) ≠ 0 := by
  intro h0
  apply h
  have : x.toNat = y.toNat := by omega
  exact char_eq_of_toNat this

theorem strncmp_eq_zero_iff (n : Nat) : ∀ a b : List Char,
    strncmp a b n = 0 ↔ (cstr a).take n = (cstr b).take n := by
  induction n with
  | zero => intro a b; simp [strncmp]
  | succ n ih =>
    intro a b
    unfold strncmp
    cases a with
    | nil =>
      cases b with
      | nil => simp [cstr_nil]
      | cons y bs =>
        by_cases hy : y = NUL
        · simp [cstr_cons, hy, cstr_nil]
        · have hy2 : NUL ≠ y := fun h => hy h.symm
          simp [cstr_cons, hy, cstr_nil, hy2, char_toNat_sub_ne hy2]
    | cons x as =>
      cases b with
      | nil =>
        by_cases hx : x = NUL
        · simp [cstr_cons, hx, cstr_nil]
        · simp [cstr_cons, hx, cstr_nil, char_toNat_sub_ne hx]
      | cons y bs =>
        by_cases hxy : x = y
        · subst hxy
          by_cases hx : x = NUL
          · simp [cstr_cons, hx]
          · simp [cstr_cons, hx, ih]
        · by_cases hx : x = NUL
          · have hy : ¬ y = NUL := fun h => hxy (hx.trans h.symm)
            subst hx
            simp [cstr_cons, hy, hxy, char_toNat_sub_ne hxy]
          · by_cases hy : y = NUL
            · subst hy
              simp [cstr_cons, hx, hxy, char_toNat_sub_ne hxy]
            · simp [cstr_cons, hx, hy, hxy, char_toNat_sub_ne hxy]

theorem strcmp_eq_zero_iff (a b : List Char) : strcmp a b = 0 ↔ cstr a = cstr b := by
  unfold strcmp
  rw [strncmp_eq_zero_iff]
  have ha := cstr_length_le a
  rw [List.take_of_length_le (by omega)]
  constructor
  · intro h
    have hb : (cstr b).length ≤ a.length := by
      by_contra hc
      have := congrArg List.length h
      rw [List.length_take] at this
      omega
    rw [h, List.take_of_length_le (by omega)]
  · intro h
    rw [← h, List.take_of_length_le (by omega)]

theorem strchr_append (c : Char) (p r : List Char)
    (hp : ∀ x ∈ p, x ≠ c ∧ x ≠ NUL) : strchr (p ++ c :: r) c = some (c :: r) := by
  induction p with
  | nil => simp [strchr]
  | cons x p ih =>
    have hx := hp x (List.mem_cons_self _ _)
    simp only [List.cons_append, strchr, beq_iff_eq, hx.1, hx.2, if_false]
    exact ih (fun y hy => hp y (List.mem_cons_of_mem _ hy))

theorem strchr_none (c : Char) (p : List Char) (hc : c ≠ NUL)
    (hp : c ∉ cstr p) : strchr p c = none := by
  induction p with
  | nil => simp [strchr, hc]
  | cons x p ih =>
    rw [cstr_cons] at hp
    by_cases hx : x = NUL
    · have : ¬ x = c := fun h => hc (h ▸ hx)
      simp [strchr, hx, this]
      intro h; exact hc h.symm
    · rw [if_neg hx] at hp
      simp only [List.mem_cons, not_or] at hp
      have hne : ¬ x = c := fun h => hp.1 h.symm
      simp only [strchr, beq_iff_eq, hne, hx, if_false]
      exact ih hp.2

theorem strncpy_bytes_length (n : Nat) : ∀ src : List Char, (strncpy_bytes src n).length = n := by
  induction n with
  | zero => intro src; simp [strncpy_bytes]
  | succ n ih =>
    intro src
    cases src with
    | nil => simp [strncpy_bytes]
    | cons c cs =>
      by_cases hc : c = NUL <;> simp [strncpy_bytes, hc, ih]

theorem strncpy_bytes_eq (n : Nat) : ∀ src : List Char,
    strncpy_bytes src n =
      (cstr src).take n ++ List.replicate (n - ((cstr src).take n).length) NUL := by
  induction n with
  | zero => intro src; simp [strncpy_bytes]
  | succ n ih =>
    intro src
    cases src with
    | nil => simp [strncpy_bytes, cstr_nil]
    | cons c cs =>
      by_cases hc : c = NUL
      · simp [strncpy_bytes, hc, cstr_cons]
      · simp only [strncpy_bytes, beq_iff_eq, hc, if_false, cstr_cons, List.take_succ_cons,
          List.length_cons, Nat.add_sub_add_right, List.cons_append]
        rw [← ih]

/-- What a slot holds after `strncpy(slot, value, n); slot[n] = 0`. -/
theorem cstr_strncpy_set (dst src : List Char) (n : Nat) :
    cstr ((strncpy dst src n).set n NUL) = (cstr src).take n := by
  unfold strncpy
  have hlen := strncpy_bytes_length n src
  rw [List.set_append_right _ _ (by omega), hlen, Nat.sub_self, strncpy_bytes_eq, List.append_assoc]
  apply cstr_append_of_head
  · intro c hc
    exact not_NUL_of_mem_cstr (List.mem_of_mem_take hc)
  · cases h : n - ((cstr src).take n).length with
    | zero =>
      cases dst.drop n with
      | nil => simp
      | cons x xs => simp
    | succ k => simp [List.replicate_succ]

/-! ## Facts about `send_message` -/

theorem send_message_eq (msg : List Char) (s : Device) :
    send_message msg s =
      if (cstr msg).length < 79 then { s with uart_tx := s.uart_tx ++ [cstr msg ++ [LF]] }
      else s := by
  unfold send_message snprintf HAL_UART_Transmit
  by_cases h : (cstr msg).length < 79
  · have h1 : (0 : Int) < ((cstr msg ++ [LF]).length : Int) ∧
        ((cstr msg ++ [LF]).length : Int) < 80 := by
      simp only [List.length_append, List.length_singleton]; omega
    simp only [h1, and_self, if_true, h]
    have h2 : (((cstr msg ++ [LF]).length : Int)).toNat = (cstr msg).length + 1 := by
      simp
    rw [h2, List.take_take]
    congr 2
    rw [List.take_of_length_le]
    simp only [List.length_append, List.length_singleton]; omega
  · have h1 : ¬ ((0 : Int) < ((cstr msg ++ [LF]).length : Int) ∧
        ((cstr msg ++ [LF]).length : Int) < 80) := by
      simp only [List.length_append, List.length_singleton]; omega
    simp only [h1, if_false, h]

theorem cstr_append_left {l : List Char} (r : List Char) (hl : ∀ c ∈ l, c ≠ NUL) :
    cstr (l ++ r) = l ++ cstr r := by
  induction l with
  | nil => rfl
  | cons c l ih =>
    rw [List.cons_append, cstr_cons, if_neg (hl c (List.mem_cons_self _ _)), ih]
    · rfl
    · intro d hd
      exact hl d (List.mem_cons_of_mem _ hd)

/-! ## Which branch `process_command` takes -/

theorem process_command_get (now : Nat) (rest : List Char) (s : Device) :
    process_command now ("GET_CODE_".toList ++ rest) s =
      cmd_get_code (slot_int ("GET_CODE_".toList ++ rest)) (command_entry now s) := by
  have hc : cstr ("GET_CODE_".toList ++ rest) = "GET_CODE_".toList ++ cstr rest :=
    cstr_append_left rest (by decide)
  have h1 : strcmp ("GET_CODE_".toList ++ rest) "CONNECT".toList ≠ 0 := by
    rw [Ne, strcmp_eq_zero_iff, hc]
    intro h
    have := congrArg (fun l => l.headD NUL) h
    change 'G' = 'C' at this
    exact absurd this (by decide)
  have h2 : strncmp ("GET_CODE_".toList ++ rest) "GET_CODE_".toList 9 = 0 := by
    rw [strncmp_eq_zero_iff, hc]
    rfl
  unfold process_command
  simp only [h1, h2, if_true, if_false]

theorem process_command_set (now : Nat) (rest : List Char) (s : Device) :
    process_command now ("SET_CODE_".toList ++ rest) s =
      cmd_set_code (slot_int ("SET_CODE_".toList ++ rest))
        (strchr ("SET_CODE_".toList ++ rest) ':') (command_entry now s) := by
  have hc : cstr ("SET_CODE_".toList ++ rest) = "SET_CODE_".toList ++ cstr rest :=
    cstr_append_left rest (by decide)
  have h1 : strcmp ("SET_CODE_".toList ++ rest) "CONNECT".toList ≠ 0 := by
    rw [Ne, strcmp_eq_zero_iff, hc]
    intro h
    have := congrArg (fun l => l.headD NUL) h
    change 'S' = 'C' at this
    exact absurd this (by decide)
  have h2 : strncmp ("SET_CODE_".toList ++ rest) "GET_CODE_".toList 9 ≠ 0 := by
    rw [Ne, strncmp_eq_zero_iff, hc]
    intro h
    have := congrArg (fun l => l.headD NUL) h
    change 'S' = 'G' at this
    exact absurd this (by decide)
  have h3 : strncmp ("SET_CODE_".toList ++ rest) "SET_CODE_".toList 9 = 0 := by
    rw [strncmp_eq_zero_iff, hc]
    rfl
  unfold process_command
  simp only [h1, h2, h3, if_true, if_false]

theorem slot_int_append (tag rest : List Char) (h : tag.length = 9) :
    slot_int (tag ++ rest) = ((rest.headD NUL).toNat : Int) - 49 := by
  unfold slot_int
  have : (tag ++ rest).getD 9 NUL = rest.headD NUL := by
    rw [List.getD_eq_getElem?_getD, List.getElem?_append_right (by omega), h]
    cases rest <;> simp
  rw [this]
  rfl

/-! ## Effect of the `GET_CODE_` and `SET_CODE_` branches -/

theorem slot_ref_coe (i : Fin 3) (h : 0 ≤ (i.val : Int) ∧ (i.val : Int) < 3) :
    slot_ref (i.val : Int) h = i := Fin.ext (by simp [slot_ref])

theorem cmd_get_code_valid (s : Device) (i : Fin 3) :
    cmd_get_code (i.val : Int) s =
      let code := s.access_code i
      let msg := (snprintf 50
        ("CODE_".toList ++ fmt_d ((i.val : Int) + 1) ++ ":".toList ++ cstr code)).1
      let s := send_message msg s
      let s := lcd_putstring "GET CODE".toList s
      let s := lcd_command LcdCmd.LINE_TWO s
      let shown := if code.headD NUL ≠ NUL then code else "Empty".toList
      let display := (snprintf 17
        ("Slot ".toList ++ fmt_d ((i.val : Int) + 1) ++ ": ".toList ++ (cstr shown).take 10)).1
      let s := lcd_putstring display s
      let s := { s with single_led := (i.val + 1) % 256 }
      { s with led_mode := LED_Mode.LED_MODE_SINGLE } := by
  have hnat : ((i.val : Int) + 1).toNat = i.val + 1 := by omega
  have h : 0 ≤ (i.val : Int) ∧ (i.val : Int) < 3 := by
    have := i.isLt
    omega
  unfold cmd_get_code
  rw [dif_pos h]
  simp only [slot_ref_coe, hnat]

theorem cmd_get_code_invalid (i : Int) (s : Device) (hi : ¬ (0 ≤ i ∧ i < 3)) :
    cmd_get_code i s =
      lcd_putstring "Invalid Slot".toList (lcd_command LcdCmd.LINE_TWO
        (lcd_putstring "ERROR".toList (send_message "ERR:INVALID_SLOT".toList s))) := by
  unfold cmd_get_code
  rw [dif_neg hi]

theorem cmd_set_code_invalid (i : Int) (value : Option (List Char)) (s : Device)
    (hi : ¬ ((0 ≤ i ∧ i < 3) ∧ value.isSome)) :
    cmd_set_code i value s =
      lcd_putstring "Bad Format".toList (lcd_command LcdCmd.LINE_TWO
        (lcd_putstring "ERROR".toList (send_message "ERR:INVALID_FORMAT".toList s))) := by
  unfold cmd_set_code
  rw [dif_neg hi]

theorem cmd_set_code_valid (s : Device) (i : Fin 3) (value : List Char) :
    cmd_set_code (i.val : Int) (some value) s =
      let code := (strncpy (s.access_code i) value.tail MAX_CODE_LENGTH).set MAX_CODE_LENGTH NUL
      let s := { s with access_code := Function.update s.access_code i code }
      let s := send_message "SAVED".toList s
      let s := lcd_putstring "SET CODE".toList s
      let s := lcd_command LcdCmd.LINE_TWO s
      let display := (snprintf 17
        ("Slot ".toList ++ fmt_d ((i.val : Int) + 1) ++ " Saved".toList)).1
      let s := lcd_putstring display s
      let s := { s with single_led := i.val % 256 }
      { s with led_mode := LED_Mode.LED_MODE_SINGLE } := by
  have h : (0 ≤ (i.val : Int) ∧ (i.val : Int) < 3) ∧ (some value).isSome := by
    have := i.isLt
    refine ⟨by omega, rfl⟩
  have hnat : ((i.val : Int)).toNat = i.val := by omega
  unfold cmd_set_code
  rw [dif_pos h]
  simp only [slot_ref_coe, hnat, Option.get_some]

theorem fmt_d_slot (i : Fin 3) (d : Char) (hd : d.toNat = 49 + i.val) :
    fmt_d ((i.val : Int) + 1) = [d] := by
  fin_cases i
  · have : d = '1' := char_eq_of_toNat hd
    subst this; decide
  · have : d = '2' := char_eq_of_toNat hd
    subst this; decide
  · have : d = '3' := char_eq_of_toNat hd
    subst this; decide

theorem slot_char_ne (i : Fin 3) (d : Char) (hd : d.toNat = 49 + i.val) :
    d ≠ ':' ∧ d ≠ NUL := by
  have := i.isLt
  constructor
  · intro h
    have h2 : d.toNat = 58 := by rw [h]; decide
    omega
  · intro h
    have h2 : d.toNat = 0 := by rw [h]; decide
    omega

theorem send_message_short (msg : List Char) (s : Device) (h : (cstr msg).length < 79) :
    send_message msg s = { s with uart_tx := s.uart_tx ++ [cstr msg ++ [LF]] } := by
  rw [send_message_eq, if_pos h]

theorem cstr_snprintf_literal (size : Nat) (text : List Char) (h : ∀ c ∈ text, c ≠ NUL) :
    cstr (snprintf size text).1 = text.take (size - 1) :=
  cstr_eq_self (fun c hc => h c (List.mem_of_mem_take hc))

/-- Effect of a well-formed `SET_CODE_` command, with any text `j` free of `:` between the
slot digit and the separator. -/
theorem set_code_effect (now : Nat) (s : Device) (i : Fin 3) (d : Char)
    (hd : d.toNat = 49 + i.val) (j v : List Char) (hj : ∀ x ∈ j, x ≠ ':' ∧ x ≠ NUL) :
    process_command now ("SET_CODE_".toList ++ d :: (j ++ ':' :: v)) s =
      { command_entry now s with
        access_code := Function.update s.access_code i
          ((strncpy (s.access_code i) v MAX_CODE_LENGTH).set MAX_CODE_LENGTH NUL)
        uart_tx := s.uart_tx ++ ["SAVED".toList ++ [LF]]
        lcd := s.lcd ++ [LcdOp.command LcdCmd.CLEAR, LcdOp.putstring "SET CODE".toList,
          LcdOp.command LcdCmd.LINE_TWO,
          LcdOp.putstring ("Slot ".toList ++ d :: " Saved".toList)]
        single_led := i.val
        led_mode := LED_Mode.LED_MODE_SINGLE } := by
  have hi : slot_int ("SET_CODE_".toList ++ d :: (j ++ ':' :: v)) = (i.val : Int) := by
    rw [slot_int_append "SET_CODE_".toList _ rfl, List.headD_cons, hd]
    omega
  have hdne := slot_char_ne i d hd
  have hs : strchr ("SET_CODE_".toList ++ d :: (j ++ ':' :: v)) ':' = some (':' :: v) := by
    have e : "SET_CODE_".toList ++ d :: (j ++ ':' :: v)
        = ("SET_CODE_".toList ++ d :: j) ++ ':' :: v := by simp
    rw [e]
    apply strchr_append
    intro x hx
    rw [List.mem_append, List.mem_cons] at hx
    rcases hx with hx | hx | hx
    · revert x; decide
    · rw [hx]; exact hdne
    · exact hj x hx
  have hlt : i.val % 256 = i.val := Nat.mod_eq_of_lt (by have := i.isLt; omega)
  rw [process_command_set, hi, hs, cmd_set_code_valid]
  have hdisp : cstr (snprintf 17 ("Slot ".toList ++ fmt_d ((i.val : Int) + 1) ++ " Saved".toList)).1
      = "Slot ".toList ++ d :: " Saved".toList := by
    rw [fmt_d_slot i d hd, cstr_snprintf_literal]
    · rfl
    · intro c hc
      rw [List.mem_append, List.mem_append, List.mem_singleton] at hc
      rcases hc with (hc | hc) | hc
      · revert c; decide
      · rw [hc]; exact hdne.2
      · revert c; decide
  simp only [lcd_putstring, lcd_command, hdisp, hlt, List.tail_cons]
  rw [send_message_short "SAVED".toList _ (by decide)]
  simp only [command_entry, lcd_command, List.append_assoc, List.singleton_append]
  rfl

/-- Effect of a well-formed `GET_CODE_` command, whatever follows the slot digit. -/
theorem get_code_effect (now : Nat) (s : Device) (i : Fin 3) (d : Char)
    (hd : d.toNat = 49 + i.val) (rest : List Char) :
    process_command now ("GET_CODE_".toList ++ d :: rest) s =
      { command_entry now s with
        uart_tx := s.uart_tx ++
          [("CODE_".toList ++ d :: ':' :: cstr (s.access_code i)).take 49 ++ [LF]]
        lcd := s.lcd ++ [LcdOp.command LcdCmd.CLEAR, LcdOp.putstring "GET CODE".toList,
          LcdOp.command LcdCmd.LINE_TWO,
          LcdOp.putstring (("Slot ".toList ++ d :: ": ".toList ++
            (cstr (if (s.access_code i).headD NUL ≠ NUL then s.access_code i
              else "Empty".toList)).take 10).take 16)]
        single_led := i.val + 1
        led_mode := LED_Mode.LED_MODE_SINGLE } := by
  have hi : slot_int ("GET_CODE_".toList ++ d :: rest) = (i.val : Int) := by
    rw [slot_int_append "GET_CODE_".toList _ rfl, List.headD_cons, hd]
    omega
  have hdne := slot_char_ne i d hd
  have hlt : (i.val + 1) % 256 = i.val + 1 := Nat.mod_eq_of_lt (by have := i.isLt; omega)
  have hmsg : cstr (snprintf 50 ("CODE_".toList ++ fmt_d ((i.val : Int) + 1) ++ ":".toList ++
      cstr (s.access_code i))).1 = ("CODE_".toList ++ d :: ':' :: cstr (s.access_code i)).take 49 := by
    rw [fmt_d_slot i d hd, cstr_snprintf_literal]
    · rfl
    · intro c hc
      rw [List.mem_append, List.mem_append, List.mem_append, List.mem_singleton] at hc
      rcases hc with ((hc | hc) | hc) | hc
      · revert c; decide
      · rw [hc]; exact hdne.2
      · revert c; decide
      · exact not_NUL_of_mem_cstr hc
  have hdisp : ∀ shown : List Char,
      cstr (snprintf 17 ("Slot ".toList ++ fmt_d ((i.val : Int) + 1) ++ ": ".toList ++
        (cstr shown).take 10)).1 = ("Slot ".toList ++ d :: ": ".toList ++
        (cstr shown).take 10).take 16 := by
    intro shown
    rw [fmt_d_slot i d hd, cstr_snprintf_literal]
    · rfl
    · intro c hc
      rw [List.mem_append, List.mem_append, List.mem_append, List.mem_singleton] at hc
      rcases hc with ((hc | hc) | hc) | hc
      · revert c; decide
      · rw [hc]; exact hdne.2
      · revert c; decide
      · exact not_NUL_of_mem_cstr (List.mem_of_mem_take hc)
  have hac : (command_entry now s).access_code = s.access_code := rfl
  rw [process_command_get, hi, cmd_get_code_valid]
  simp only [lcd_putstring, lcd_command, hac, hdisp, hlt]
  rw [send_message_short _ _ (by rw [hmsg, List.length_take]; omega), hmsg]
  simp only [command_entry, lcd_command, List.append_assoc, List.singleton_append]
  rfl

/-! ## Round trip of a stored code -/

theorem slot_digit (n : Nat) (hn : 1 ≤ n ∧ n ≤ 3) :
    ∃ (i : Fin 3) (d : Char), i.val + 1 = n ∧ d.toNat = 49 + i.val ∧ Nat.toDigits 10 n = [d] := by
  obtain ⟨h1, h3⟩ := hn
  interval_cases n
  · exact ⟨0, '1', by decide, by decide, by decide⟩
  · exact ⟨1, '2', by decide, by decide, by decide⟩
  · exact ⟨2, '3', by decide, by decide, by decide⟩

theorem printable_ne_NUL {c : Char} (h : printable c) : c ≠ NUL := by
  intro hc
  have h0 : c.toNat = 0 := by rw [hc]; decide
  have := h.1
  omega

/-- C1: for n in 1..3, any state and any printable v, `SET_CODE_<n>:<v>` answers `SAVED` and a
following `GET_CODE_<n>` answers `CODE_<n>:` followed by the first 19 characters of v. -/
theorem set_code_get_code_roundtrip (n : Nat) (hn : 1 ≤ n ∧ n ≤ 3) (s : Device) (t1 t2 : Nat)
    (v : List Char) (hv : ∀ c ∈ v, printable c) :
    (process_command t1 ("SET_CODE_".toList ++ Nat.toDigits 10 n ++ ':' :: v) s).uart_tx
        = s.uart_tx ++ ["SAVED".toList ++ [LF]] ∧
      (process_command t2 ("GET_CODE_".toList ++ Nat.toDigits 10 n)
        (process_command t1 ("SET_CODE_".toList ++ Nat.toDigits 10 n ++ ':' :: v) s)).uart_tx
        = s.uart_tx ++ ["SAVED".toList ++ [LF]] ++
            ["CODE_".toList ++ Nat.toDigits 10 n ++ ':' :: v.take 19 ++ [LF]] := by
  obtain ⟨i, d, -, hd, hdig⟩ := slot_digit n hn
  have hset : "SET_CODE_".toList ++ Nat.toDigits 10 n ++ ':' :: v
      = "SET_CODE_".toList ++ d :: ([] ++ ':' :: v) := by rw [hdig]; simp
  have hget : "GET_CODE_".toList ++ Nat.toDigits 10 n = "GET_CODE_".toList ++ d :: [] := by
    rw [hdig]
  have hvn : ∀ c ∈ v, c ≠ NUL := fun c hc => printable_ne_NUL (hv c hc)
  rw [hset, hget, set_code_effect t1 s i d hd [] v (by simp), get_code_effect t2 _ i d hd []]
  refine ⟨rfl, ?_⟩
  simp only [Function.update_same, cstr_strncpy_set, cstr_eq_self hvn, hdig]
  have hlen : ("CODE_".toList ++ d :: ':' :: List.take MAX_CODE_LENGTH v).length ≤ 49 := by
    simp only [List.length_append, List.length_cons, List.length_take, MAX_CODE_LENGTH]
    have : "CODE_".toList.length = 5 := rfl
    omega
  rw [List.take_of_length_le hlen]
  simp [MAX_CODE_LENGTH]

theorem set_code_get_code_roundtrip_witness :
    (1 ≤ 2 ∧ 2 ≤ 3) ∧ (∀ c ∈ "a:b,0123456789ABCDEFGHIJ".toList, printable c) ∧
      (process_command 5 "SET_CODE_2:a:b,0123456789ABCDEFGHIJ".toList Device.boot).uart_tx
        = ["STM Ready\n".toList, "SAVED\n".toList] ∧
      (process_command 9 "GET_CODE_2".toList
        (process_command 5 "SET_CODE_2:a:b,0123456789ABCDEFGHIJ".toList Device.boot)).uart_tx
        = ["STM Ready\n".toList, "SAVED\n".toList, "CODE_2:a:b,0123456789ABCDE\n".toList] :=
  ⟨by decide, by decide,
    set_code_get_code_roundtrip 2 (by decide) Device.boot 5 9 "a:b,0123456789ABCDEFGHIJ".toList
      (by decide)⟩

/-! ## Invalid slot selectors -/

theorem slot_int_out_of_range (tag rest : List Char) (ht : tag.length = 9)
    (h : rest.headD NUL ≠ '1' ∧ rest.headD NUL ≠ '2' ∧ rest.headD NUL ≠ '3') :
    ¬ (0 ≤ slot_int (tag ++ rest) ∧ slot_int (tag ++ rest) < 3) := by
  rw [slot_int_append tag rest ht]
  intro hr
  have hcases : (rest.headD NUL).toNat = 49 ∨ (rest.headD NUL).toNat = 50 ∨
      (rest.headD NUL).toNat = 51 := by omega
  rcases hcases with hc | hc | hc
  · exact h.1 (char_eq_of_toNat hc)
  · exact h.2.1 (char_eq_of_toNat hc)
  · exact h.2.2 (char_eq_of_toNat hc)

/-- C2: a `GET_CODE_` command whose next character is not 1, 2 or 3 (the end of the string
included) is answered exactly `ERR:INVALID_SLOT`, a `SET_CODE_` command of that kind exactly
`ERR:INVALID_FORMAT`, and in both cases the three slots are left as they were. -/
theorem invalid_slot_rejected (now : Nat) (rest : List Char) (s : Device)
    (h : rest.headD NUL ≠ '1' ∧ rest.headD NUL ≠ '2' ∧ rest.headD NUL ≠ '3') :
    ((process_command now ("GET_CODE_".toList ++ rest) s).uart_tx
        = s.uart_tx ++ ["ERR:INVALID_SLOT".toList ++ [LF]] ∧
      (process_command now ("GET_CODE_".toList ++ rest) s).access_code = s.access_code) ∧
    ((process_command now ("SET_CODE_".toList ++ rest) s).uart_tx
        = s.uart_tx ++ ["ERR:INVALID_FORMAT".toList ++ [LF]] ∧
      (process_command now ("SET_CODE_".toList ++ rest) s).access_code = s.access_code) := by
  constructor
  · rw [process_command_get,
      cmd_get_code_invalid _ _ (slot_int_out_of_range "GET_CODE_".toList rest rfl h),
      send_message_short "ERR:INVALID_SLOT".toList _ (by decide)]
    exact ⟨rfl, rfl⟩
  · rw [process_command_set,
      cmd_set_code_invalid _ _ _
        (fun hc => slot_int_out_of_range "SET_CODE_".toList rest rfl h hc.1),
      send_message_short "ERR:INVALID_FORMAT".toList _ (by decide)]
    exact ⟨rfl, rfl⟩

theorem invalid_slot_rejected_witness :
    (("4:abc".toList.headD NUL ≠ '1' ∧ "4:abc".toList.headD NUL ≠ '2' ∧
        "4:abc".toList.headD NUL ≠ '3') ∧
      ((process_command 7 "GET_CODE_4:abc".toList Device.boot).uart_tx
          = ["STM Ready\n".toList, "ERR:INVALID_SLOT\n".toList] ∧
        (process_command 7 "GET_CODE_4:abc".toList Device.boot).access_code
          = Device.boot.access_code) ∧
      ((process_command 7 "SET_CODE_4:abc".toList Device.boot).uart_tx
          = ["STM Ready\n".toList, "ERR:INVALID_FORMAT\n".toList] ∧
        (process_command 7 "SET_CODE_4:abc".toList Device.boot).access_code
          = Device.boot.access_code)) :=
  ⟨by decide, invalid_slot_rejected 7 "4:abc".toList Device.boot (by decide)⟩

/-! ## The STATUS command -/

theorem head_ne_NUL_iff (p : List Char) : p.headD NUL ≠ NUL ↔ cstr p ≠ [] := by
  cases p with
  | nil => simp [cstr_nil]
  | cons c l =>
    rw [cstr_cons]
    by_cases hc : c = NUL <;> simp [hc]

/-- The number of slots that hold a non-empty string. -/
theorem stored_count_eq (s : Device) :
    stored_count s =
      ((Finset.univ.filter (fun i : Fin 3 => cstr (s.access_code i) ≠ [])).card : Int) := by
  have hl : List.finRange 3 = [0, 1, 2] := by decide
  unfold stored_count
  rw [hl, Finset.card_filter, Fin.sum_univ_three]
  simp only [List.foldl_cons, List.foldl_nil, head_ne_NUL_iff]
  by_cases h0 : cstr (s.access_code 0) = [] <;> by_cases h1 : cstr (s.access_code 1) = [] <;>
    by_cases h2 : cstr (s.access_code 2) = [] <;> simp [h0, h1, h2]

theorem process_command_status (now : Nat) (s : Device) :
    process_command now "STATUS".toList s = cmd_status (command_entry now s) := by
  have h1 : ¬ strcmp "STATUS".toList "CONNECT".toList = 0 := by decide
  have h2 : ¬ strncmp "STATUS".toList "GET_CODE_".toList 9 = 0 := by decide
  have h3 : ¬ strncmp "STATUS".toList "SET_CODE_".toList 9 = 0 := by decide
  have h4 : ¬ strcmp "STATUS".toList "DISCONNECT".toList = 0 := by decide
  have h5 : strcmp "STATUS".toList "STATUS".toList = 0 := by decide
  unfold process_command
  simp only [h1, h2, h3, h4, h5, if_true, if_false]

theorem cmd_status_eq (s : Device) (k : Nat) (hk : k ≤ 3) (h : stored_count s = (k : Int)) :
    cmd_status s =
      { s with
        uart_tx := s.uart_tx ++
          ["STATUS:OK,CODES:".toList ++ Nat.toDigits 10 k ++ "/3".toList ++ [LF]]
        lcd := s.lcd ++ [LcdOp.putstring "Status Check".toList, LcdOp.command LcdCmd.LINE_TWO,
          LcdOp.putstring (Nat.toDigits 10 k ++ " codes stored".toList)] } := by
  unfold cmd_status
  rw [h]
  interval_cases k
  all_goals
    dsimp only
    rw [send_message_short _ _ (by decide)]
    simp only [lcd_putstring, lcd_command, List.append_assoc, List.singleton_append]
    rfl

/-- C3: `STATUS` answers exactly `STATUS:OK,CODES:<k>/3` with k the number of slots holding a
non-empty string, for every content of the slots, and changes neither the slots nor the LED
mode. -/
theorem status_reports_stored_count (now : Nat) (s : Device) :
    (process_command now "STATUS".toList s).uart_tx
        = s.uart_tx ++ ["STATUS:OK,CODES:".toList ++
            Nat.toDigits 10 (Finset.univ.filter
              (fun i : Fin 3 => cstr (s.access_code i) ≠ [])).card ++ "/3".toList ++ [LF]] ∧
      (process_command now "STATUS".toList s).access_code = s.access_code ∧
      (process_command now "STATUS".toList s).led_mode = s.led_mode := by
  have hk : (Finset.univ.filter (fun i : Fin 3 => cstr (s.access_code i) ≠ [])).card ≤ 3 := by
    have := Finset.card_filter_le (Finset.univ : Finset (Fin 3))
      (fun i : Fin 3 => cstr (s.access_code i) ≠ [])
    simpa using this
  have hc : stored_count (command_entry now s) =
      ((Finset.univ.filter (fun i : Fin 3 => cstr (s.access_code i) ≠ [])).card : Int) :=
    stored_count_eq (command_entry now s)
  rw [process_command_status, cmd_status_eq _ _ hk hc]
  exact ⟨rfl, rfl, rfl⟩

/-! ## The receive handler -/

theorem take_set_succ : ∀ (buf : List Char) (k : Nat) (b : Char), k < buf.length →
    (buf.set k b).take (k + 1) = buf.take k ++ [b]
  | [], _, _, h => by simp at h
  | _ :: _, 0, _, _ => by simp
  | x :: xs, k + 1, b, h => by
    simp only [List.set_cons_succ, List.take_succ_cons, List.cons_append, List.cons.injEq,
      true_and]
    exact take_set_succ xs k b (by simpa using h)

theorem callback_data (b : Char) (r : Rx) (hb : b ≠ CR ∧ b ≠ LF)
    (hi : r.rx_index < RX_BUFFER_SIZE - 1) :
    HAL_UART_RxCpltCallback b r =
      { r with rx_buffer := r.rx_buffer.set r.rx_index b, rx_index := r.rx_index + 1 } := by
  unfold HAL_UART_RxCpltCallback
  rw [if_neg (by simp [hb.1, hb.2]), if_pos hi]

theorem callback_full (b : Char) (r : Rx) (hb : b ≠ CR ∧ b ≠ LF)
    (hi : ¬ r.rx_index < RX_BUFFER_SIZE - 1) :
    HAL_UART_RxCpltCallback b r = { r with rx_index := 0 } := by
  unfold HAL_UART_RxCpltCallback
  rw [if_neg (by simp [hb.1, hb.2]), if_neg hi]

theorem callback_delimiter (d : Char) (r : Rx) (hd : d = CR ∨ d = LF) :
    HAL_UART_RxCpltCallback d r =
      if r.rx_index > 0 then
        { rx_buffer := r.rx_buffer.set r.rx_index NUL, cmd_ready := 1, rx_index := 0 }
      else r := by
  unfold HAL_UART_RxCpltCallback
  rw [if_pos hd]

theorem receive_nil (r : Rx) : receive [] r = r := rfl

theorem receive_cons (b : Char) (l : List Char) (r : Rx) :
    receive (b :: l) r = receive l (HAL_UART_RxCpltCallback b r) := rfl

theorem receive_append (l m : List Char) (r : Rx) :
    receive (l ++ m) r = receive m (receive l r) := by
  unfold receive
  rw [List.foldl_append]

/-- Data bytes that fit are appended at the accumulation index. -/
theorem receive_data (l : List Char) : ∀ r : Rx,
    (∀ c ∈ l, c ≠ CR ∧ c ≠ LF) → r.rx_index + l.length ≤ RX_BUFFER_SIZE - 1 →
    r.rx_buffer.length = RX_BUFFER_SIZE →
    receive l r =
      { rx_buffer := r.rx_buffer.take r.rx_index ++ l ++
          r.rx_buffer.drop (r.rx_index + l.length),
        rx_index := r.rx_index + l.length,
        cmd_ready := r.cmd_ready } := by
  induction l with
  | nil =>
    intro r _ _ _
    simp [receive_nil]
  | cons b l ih =>
    intro r hl hfit hbuf
    have hb := hl b (List.mem_cons_self _ _)
    simp only [List.length_cons] at hfit
    rw [receive_cons, callback_data b r hb (by omega),
      ih _ (fun c hc => hl c (List.mem_cons_of_mem _ hc)) (by simp only; omega)
        (by simp only [List.length_set]; exact hbuf)]
    have hlt : r.rx_index < r.rx_buffer.length := by
      rw [hbuf]; simp only [RX_BUFFER_SIZE] at hfit ⊢; omega
    have e1 := take_set_succ r.rx_buffer r.rx_index b hlt
    have e2 : (r.rx_buffer.set r.rx_index b).drop (r.rx_index + (l.length + 1))
        = r.rx_buffer.drop (r.rx_index + (l.length + 1)) :=
      List.drop_set_of_lt _ _ (by omega)
    simp only [List.length_cons, e1, e2, List.append_assoc, List.singleton_append,
      List.cons_append, List.nil_append, Nat.add_assoc, Nat.add_comm 1 l.length]

/-- A line of 1 to 63 data bytes followed by a delimiter, received from index 0. -/
theorem receive_line (r : Rx) (l : List Char) (d : Char)
    (hidx : r.rx_index = 0) (hbuf : r.rx_buffer.length = RX_BUFFER_SIZE)
    (hlen : 1 ≤ l.length ∧ l.length ≤ 63)
    (hl : ∀ c ∈ l, c ≠ CR ∧ c ≠ LF) (hd : d = CR ∨ d = LF) :
    receive (l ++ [d]) r =
      { rx_buffer := l ++ NUL :: r.rx_buffer.drop (l.length + 1), rx_index := 0,
        cmd_ready := 1 } := by
  have hfit : r.rx_index + l.length ≤ RX_BUFFER_SIZE - 1 := by
    rw [hidx]; simp only [RX_BUFFER_SIZE]; omega
  rw [receive_append, receive_data l r hl hfit hbuf, receive_cons, receive_nil,
    callback_delimiter d _ hd, hidx]
  simp only [Nat.zero_add, List.take_zero, List.nil_append]
  rw [if_pos (by omega)]
  congr 1
  rw [List.set_append_right _ _ (Nat.le_refl _), Nat.sub_self]
  congr 1
  have hlt : l.length < r.rx_buffer.length := by
    rw [hbuf]; simp only [RX_BUFFER_SIZE]; omega
  rw [List.drop_eq_getElem_cons hlt, List.set_cons_zero]

/-- C4: from index 0, a line of 1 to 63 bytes free of CR, LF and NUL followed by one CR or LF
sets the ready flag, resets the index to 0 and leaves the line NUL-terminated at the start of
the buffer (so that the main loop copies out exactly that line); a CR or LF arriving at
index 0 changes nothing. -/
theorem line_published (r : Rx) (l : List Char) (d : Char)
    (hidx : r.rx_index = 0) (hbuf : r.rx_buffer.length = RX_BUFFER_SIZE)
    (hlen : 1 ≤ l.length ∧ l.length ≤ 63)
    (hl : ∀ c ∈ l, c ≠ CR ∧ c ≠ LF ∧ c ≠ NUL) (hd : d = CR ∨ d = LF) :
    ((receive (l ++ [d]) r).cmd_ready = 1 ∧ (receive (l ++ [d]) r).rx_index = 0 ∧
      (receive (l ++ [d]) r).rx_buffer.take (l.length + 1) = l ++ [NUL] ∧
      cstr (receive (l ++ [d]) r).rx_buffer = l ∧
      ∀ previous, cstr (copy_command previous (receive (l ++ [d]) r)) = l) ∧
    HAL_UART_RxCpltCallback d r = r := by
  have hcs : cstr (l ++ NUL :: r.rx_buffer.drop (l.length + 1)) = l :=
    cstr_append_of_head (fun c hc => (hl c hc).2.2) rfl
  rw [receive_line r l d hidx hbuf hlen (fun c hc => ⟨(hl c hc).1, (hl c hc).2.1⟩) hd]
  refine ⟨⟨rfl, rfl, ?_, hcs, ?_⟩, ?_⟩
  · simp only
    rw [List.take_append_eq_append_take, List.take_of_length_le (by omega)]
    simp
  · intro previous
    unfold copy_command
    rw [cstr_strncpy_set]
    simp only [hcs]
    exact List.take_of_length_le (by simp only [RX_BUFFER_SIZE]; omega)
  · rw [callback_delimiter d r hd, hidx]
    rfl

theorem line_published_witness :
    (Rx.power_on.rx_index = 0 ∧ Rx.power_on.rx_buffer.length = RX_BUFFER_SIZE ∧
      (1 ≤ "STATUS".toList.length ∧ "STATUS".toList.length ≤ 63) ∧
      (∀ c ∈ "STATUS".toList, c ≠ CR ∧ c ≠ LF ∧ c ≠ NUL) ∧ (CR = CR ∨ CR = LF)) ∧
    ((receive ("STATUS".toList ++ [CR]) Rx.power_on).cmd_ready = 1 ∧
      (receive ("STATUS".toList ++ [CR]) Rx.power_on).rx_index = 0 ∧
      (receive ("STATUS".toList ++ [CR]) Rx.power_on).rx_buffer.take ("STATUS".toList.length + 1)
        = "STATUS".toList ++ [NUL] ∧
      cstr (receive ("STATUS".toList ++ [CR]) Rx.power_on).rx_buffer = "STATUS".toList ∧
      ∀ previous, cstr (copy_command previous (receive ("STATUS".toList ++ [CR]) Rx.power_on))
        = "STATUS".toList) ∧
    HAL_UART_RxCpltCallback CR Rx.power_on = Rx.power_on :=
  ⟨⟨rfl, rfl, by decide, by decide, Or.inl rfl⟩,
    line_published Rx.power_on "STATUS".toList CR rfl rfl (by decide) (by decide) (Or.inl rfl)⟩

/-! ## What rendering leaves alone -/

theorem render_frame_refl (s : Device) : render_frame s s :=
  ⟨rfl, rfl, rfl, rfl, rfl, rfl, rfl, rfl⟩

theorem render_frame_trans {s t u : Device} (h1 : render_frame s t) (h2 : render_frame t u) :
    render_frame s u := by
  obtain ⟨a1, a2, a3, a4, a5, a6, a7, a8⟩ := h1
  obtain ⟨b1, b2, b3, b4, b5, b6, b7, b8⟩ := h2
  exact ⟨b1.trans a1, b2.trans a2, b3.trans a3, b4.trans a4, b5.trans a5, b6.trans a6,
    b7.trans a7, b8.trans a8⟩

theorem writePin_frame (pin : Nat) (level : Bool) (s : Device) :
    render_frame s (HAL_GPIO_WritePin pin level s) := by
  unfold HAL_GPIO_WritePin
  cases level <;> exact render_frame_refl _

theorem blink_odd_pin_frame (s : Device) (i : Nat) : render_frame s (blink_odd_pin s i) := by
  unfold blink_odd_pin
  split <;> exact writePin_frame _ _ _

theorem foldl_blink_odd_pin_frame (l : List Nat) : ∀ s : Device,
    render_frame s (l.foldl blink_odd_pin s) := by
  induction l with
  | nil => intro s; exact render_frame_refl s
  | cons i l ih =>
    intro s
    exact render_frame_trans (blink_odd_pin_frame s i) (ih _)

theorem leds_blink_all_frame (now : Nat) (s : Device) :
    render_frame s (leds_blink_all now s) := by
  unfold leds_blink_all
  split
  · have h2 : render_frame { s with blink_state := lnot s.blink_state }
        (if ({ s with blink_state := lnot s.blink_state } : Device).blink_state ≠ 0
          then leds_all_on { s with blink_state := lnot s.blink_state }
          else leds_all_off { s with blink_state := lnot s.blink_state }) := by
      split
      · exact writePin_frame LED_PINS true _
      · exact writePin_frame LED_PINS false _
    exact render_frame_trans (render_frame_trans (t := { s with blink_state := lnot s.blink_state })
      (render_frame_refl _) h2) (render_frame_refl _)
  · exact render_frame_refl s

theorem leds_blink_odd_frame (now : Nat) (s : Device) :
    render_frame s (leds_blink_odd now s) := by
  unfold leds_blink_odd
  split
  · exact render_frame_trans (render_frame_trans (t := { s with blink_state := lnot s.blink_state })
      (render_frame_refl _) (foldl_blink_odd_pin_frame (List.range 8) _)) (render_frame_refl _)
  · exact render_frame_refl s

/-- Rendering touches only the port output, the blink phase and the toggle time. -/
theorem leds_update_frame (now : Nat) (s : Device) : render_frame s (leds_update now s) := by
  unfold leds_update
  split
  · exact writePin_frame _ _ _
  · exact leds_blink_all_frame now s
  · exact leds_blink_odd_frame now s
  · unfold leds_set
    split
    · exact render_frame_trans (writePin_frame LED_PINS false s) (writePin_frame _ _ _)
    · exact writePin_frame _ _ _
  · exact writePin_frame _ _ _

theorem check_led_timeout_tx (now : Nat) (s : Device) :
    (check_led_timeout now s).uart_tx = s.uart_tx ∧
      (check_led_timeout now s).access_code = s.access_code := by
  unfold check_led_timeout
  split <;> exact ⟨rfl, rfl⟩

/-! ## Overlong lines and lines without a delimiter -/

/-- Data bytes never touch the ready flag nor the size of the buffer. -/
theorem receive_data_ready (l : List Char) : ∀ r : Rx, (∀ c ∈ l, c ≠ CR ∧ c ≠ LF) →
    (receive l r).cmd_ready = r.cmd_ready ∧
      (receive l r).rx_buffer.length = r.rx_buffer.length := by
  induction l with
  | nil => intro r _; exact ⟨rfl, rfl⟩
  | cons b l ih =>
    intro r hl
    have hb := hl b (List.mem_cons_self _ _)
    have h := ih (HAL_UART_RxCpltCallback b r) (fun c hc => hl c (List.mem_cons_of_mem _ hc))
    rw [receive_cons, h.1, h.2]
    by_cases hi : r.rx_index < RX_BUFFER_SIZE - 1
    · rw [callback_data b r hb hi]
      exact ⟨rfl, List.length_set _ _ _⟩
    · rw [callback_full b r hb hi]
      exact ⟨rfl, rfl⟩

/-- Sixty-four data bytes received from index 0 bring the index back to 0. -/
theorem receive_block (l : List Char) (r : Rx) (hlen : l.length = 64)
    (hl : ∀ c ∈ l, c ≠ CR ∧ c ≠ LF) (hidx : r.rx_index = 0)
    (hbuf : r.rx_buffer.length = RX_BUFFER_SIZE) :
    (receive l r).rx_index = 0 := by
  have hsplit : l = l.take 63 ++ l.drop 63 := (List.take_append_drop 63 l).symm
  have hdrop : ∃ b, l.drop 63 = [b] := by
    have h1 : (l.drop 63).length = 1 := by rw [List.length_drop, hlen]
    match hd : l.drop 63, h1 with
    | [b], _ => exact ⟨b, rfl⟩
  obtain ⟨b, hb⟩ := hdrop
  have hbmem : b ∈ l := List.mem_of_mem_drop (by rw [hb]; exact List.mem_singleton_self b)
  have htake : (l.take 63).length = 63 := by rw [List.length_take, hlen]; rfl
  rw [hsplit, hb, receive_append,
    receive_data (l.take 63) r (fun c hc => hl c (List.mem_of_mem_take hc))
      (by rw [hidx, htake]; simp [RX_BUFFER_SIZE]) hbuf,
    receive_cons, receive_nil, callback_full b _ (hl b hbmem)
      (by simp only [hidx, htake, RX_BUFFER_SIZE]; omega)]

/-- Data bytes received from index 0 wrap around every 64 bytes: the index is the length
modulo 64 and the buffer starts with the bytes received since the last wrap. -/
theorem receive_wrap : ∀ (n : Nat) (l : List Char) (r : Rx), l.length = n →
    (∀ c ∈ l, c ≠ CR ∧ c ≠ LF) → r.rx_index = 0 → r.rx_buffer.length = RX_BUFFER_SIZE →
    (receive l r).rx_index = n % 64 ∧
      (receive l r).rx_buffer.take (n % 64) = l.drop (64 * (n / 64)) := by
  intro n
  induction n using Nat.strong_induction_on with
  | _ n ih =>
    intro l r hlen hl hidx hbuf
    by_cases hn : n < 64
    · have hfit : r.rx_index + l.length ≤ RX_BUFFER_SIZE - 1 := by
        rw [hidx, hlen]; simp only [RX_BUFFER_SIZE]; omega
      rw [receive_data l r hl hfit hbuf, Nat.mod_eq_of_lt hn, Nat.div_eq_of_lt hn, hidx]
      refine ⟨by simp [hlen], ?_⟩
      simp only [List.take_zero, List.nil_append, Nat.mul_zero, List.drop_zero]
      rw [List.take_append_eq_append_take, List.take_of_length_le (by omega), hlen, Nat.sub_self]
      simp
    · have hsplit : l = l.take 64 ++ l.drop 64 := (List.take_append_drop 64 l).symm
      have htl : (l.take 64).length = 64 := by rw [List.length_take, hlen]; omega
      have hdata1 : ∀ c ∈ l.take 64, c ≠ CR ∧ c ≠ LF := fun c hc => hl c (List.mem_of_mem_take hc)
      have hdata2 : ∀ c ∈ l.drop 64, c ≠ CR ∧ c ≠ LF := fun c hc => hl c (List.mem_of_mem_drop hc)
      have h1 := receive_block (l.take 64) r htl hdata1 hidx hbuf
      have h2 := (receive_data_ready (l.take 64) r hdata1).2
      have h3 := ih (n - 64) (by omega) (l.drop 64) (receive (l.take 64) r)
        (by rw [List.length_drop, hlen]) hdata2 h1 (by rw [h2, hbuf])
      have e1 : (n - 64) % 64 = n % 64 := by omega
      have e2 : 64 + 64 * ((n - 64) / 64) = 64 * (n / 64) := by omega
      have hrec : receive l r = receive (l.drop 64) (receive (l.take 64) r) := by
        rw [← receive_append, List.take_append_drop]
      rw [e1] at h3
      rw [hrec, h3.1, h3.2, List.drop_drop, e2]
      exact ⟨rfl, rfl⟩

/-- C5, amended: a line of data bytes of any length (more than 63 included), received from
index 0 with the ready flag clear, never sets the flag before its delimiter; the delimiter
leaves the flag clear when the length is a multiple of 64, and otherwise sets it and publishes
the bytes received since the last wrap, the last `length % 64` bytes of the line. -/
theorem overlong_line_wraps (r : Rx) (l : List Char) (d : Char)
    (hidx : r.rx_index = 0) (hready : r.cmd_ready = 0)
    (hbuf : r.rx_buffer.length = RX_BUFFER_SIZE)
    (hl : ∀ c ∈ l, c ≠ CR ∧ c ≠ LF) (hd : d = CR ∨ d = LF) :
    (∀ k, (receive (l.take k) r).cmd_ready = 0) ∧
    (l.length % 64 = 0 →
      (receive (l ++ [d]) r).cmd_ready = 0 ∧ (receive (l ++ [d]) r).rx_index = 0) ∧
    (l.length % 64 ≠ 0 →
      (receive (l ++ [d]) r).cmd_ready = 1 ∧ (receive (l ++ [d]) r).rx_index = 0 ∧
      (receive (l ++ [d]) r).rx_buffer.take (l.length % 64 + 1)
        = l.drop (64 * (l.length / 64)) ++ [NUL] ∧
      ((∀ c ∈ l, c ≠ NUL) →
        cstr (receive (l ++ [d]) r).rx_buffer = l.drop (64 * (l.length / 64)))) := by
  have hw := receive_wrap l.length l r rfl hl hidx hbuf
  have hr := receive_data_ready l r hl
  have hstep : receive (l ++ [d]) r = HAL_UART_RxCpltCallback d (receive l r) := by
    rw [receive_append, receive_cons, receive_nil]
  refine ⟨?_, ?_, ?_⟩
  · intro k
    rw [(receive_data_ready (l.take k) r (fun c hc => hl c (List.mem_of_mem_take hc))).1, hready]
  · intro h0
    rw [hstep, callback_delimiter d _ hd, hw.1, h0, if_neg (by omega)]
    exact ⟨hr.1.trans hready, hw.1.trans h0⟩
  · intro h0
    have hlt : l.length % 64 < (receive l r).rx_buffer.length := by
      rw [hr.2, hbuf]; simp only [RX_BUFFER_SIZE]; omega
    have htake : ((receive l r).rx_buffer.set (l.length % 64) NUL).take (l.length % 64 + 1)
        = l.drop (64 * (l.length / 64)) ++ [NUL] := by
      rw [take_set_succ _ _ _ hlt, hw.2]
    rw [hstep, callback_delimiter d _ hd, hw.1, if_pos (by omega)]
    refine ⟨rfl, rfl, htake, ?_⟩
    intro hnul
    have hsplit := (List.take_append_drop (l.length % 64 + 1)
      ((receive l r).rx_buffer.set (l.length % 64) NUL)).symm
    simp only
    rw [hsplit, htake, List.append_assoc]
    exact cstr_append_of_head (fun c hc => hnul c (List.mem_of_mem_drop hc)) rfl

theorem overlong_line_wraps_witness :
    (Rx.power_on.rx_index = 0 ∧ Rx.power_on.cmd_ready = 0 ∧
      Rx.power_on.rx_buffer.length = RX_BUFFER_SIZE ∧
      (∀ c ∈ List.replicate 64 'x' ++ "STATUS".toList, c ≠ CR ∧ c ≠ LF) ∧ (LF = CR ∨ LF = LF)) ∧
    (receive (List.replicate 64 'x' ++ "STATUS".toList ++ [LF]) Rx.power_on).cmd_ready = 1 ∧
    cstr (receive (List.replicate 64 'x' ++ "STATUS".toList ++ [LF]) Rx.power_on).rx_buffer
      = "STATUS".toList :=
  ⟨⟨rfl, rfl, rfl, by decide, Or.inr rfl⟩,
    ((overlong_line_wraps Rx.power_on (List.replicate 64 'x' ++ "STATUS".toList) LF rfl rfl rfl
      (by decide) (Or.inr rfl)).2.2 (by decide)).1,
    ((overlong_line_wraps Rx.power_on (List.replicate 64 'x' ++ "STATUS".toList) LF rfl rfl rfl
      (by decide) (Or.inr rfl)).2.2 (by decide)).2.2.2 (by decide)⟩

set_option maxRecDepth 8000 in
/-- C5, as stated, fails: a line of 70 data bytes (64 bytes of padding, then `STATUS`) followed
by LF, received from power-on, sets the ready flag and publishes its last 6 bytes. -/
theorem overlong_line_tail_published :
    63 < (List.replicate 64 'x' ++ "STATUS".toList).length ∧
    (∀ c ∈ List.replicate 64 'x' ++ "STATUS".toList, c ≠ CR ∧ c ≠ LF) ∧
    (receive (List.replicate 64 'x' ++ "STATUS".toList ++ [LF]) Rx.power_on).cmd_ready = 1 ∧
    cstr (copy_command (List.replicate 64 NUL)
      (receive (List.replicate 64 'x' ++ "STATUS".toList ++ [LF]) Rx.power_on))
      = "STATUS".toList := by
  decide

/-- With the ready flag clear the main loop dispatches nothing: it only renders, checks the
timeout and pauses. -/
theorem main_loop_body_idle (t_cmd t_led t_chk : Nat) (b : Board) (h : b.rx.cmd_ready = 0) :
    main_loop_body t_cmd t_led t_chk b =
      { b with dev := HAL_Delay 10 (check_led_timeout t_chk (leds_update t_led b.dev)) } := by
  unfold main_loop_body
  rw [if_neg (by rw [h]; decide)]

/-- C6: from a state with the ready flag clear (the power-on state in particular), bytes free
of CR and LF, 70 of them or any other number, leave the ready flag clear after every byte, and
a main loop iteration run at any of those moments dispatches nothing: it transmits nothing and
leaves the receive state as it is. -/
theorem data_bytes_no_line (r : Rx) (hready : r.cmd_ready = 0) (l : List Char)
    (hl : ∀ c ∈ l, c ≠ CR ∧ c ≠ LF) (k : Nat) :
    (receive (l.take k) r).cmd_ready = 0 ∧
    ∀ (t_cmd t_led t_chk : Nat) (buf : List Char) (dev : Device),
      (main_loop_body t_cmd t_led t_chk ⟨buf, receive (l.take k) r, dev⟩).dev.uart_tx
          = dev.uart_tx ∧
      (main_loop_body t_cmd t_led t_chk ⟨buf, receive (l.take k) r, dev⟩).rx
          = receive (l.take k) r := by
  have h0 : (receive (l.take k) r).cmd_ready = 0 :=
    (receive_data_ready (l.take k) r (fun c hc => hl c (List.mem_of_mem_take hc))).1.trans hready
  refine ⟨h0, ?_⟩
  intro t_cmd t_led t_chk buf dev
  rw [main_loop_body_idle _ _ _ _ h0]
  refine ⟨?_, rfl⟩
  show (check_led_timeout t_chk (leds_update t_led dev)).uart_tx = dev.uart_tx
  rw [(check_led_timeout_tx _ _).1, (leds_update_frame t_led dev).2.2.2.2.2.1]

theorem data_bytes_no_line_witness :
    (Rx.power_on.cmd_ready = 0 ∧ ∀ c ∈ List.replicate 70 'A', c ≠ CR ∧ c ≠ LF) ∧
    (List.replicate 70 'A').length = 70 ∧
    (receive ((List.replicate 70 'A').take 70) Rx.power_on).cmd_ready = 0 ∧
    (main_loop_body 0 0 0 ⟨[], receive ((List.replicate 70 'A').take 70) Rx.power_on,
      Device.boot⟩).dev.uart_tx = Device.boot.uart_tx :=
  ⟨⟨rfl, by decide⟩, rfl,
    (data_bytes_no_line Rx.power_on rfl (List.replicate 70 'A') (by decide) 70).1,
    ((data_bytes_no_line Rx.power_on rfl (List.replicate 70 'A') (by decide) 70).2
      0 0 0 [] Device.boot).1⟩

/-! ## The idle timeout -/

/-- Sending changes the transmit log only. -/
theorem send_message_frame (msg : List Char) (s : Device) :
    send_message msg s = { s with uart_tx := (send_message msg s).uart_tx } := by
  rw [send_message_eq]
  split <;> rfl

/-- The branch taken by `process_command`, after the two statements at its entry. -/
theorem process_command_cases (now : Nat) (cmd : List Char) (s : Device) :
    process_command now cmd s = cmd_connect (command_entry now s) ∨
    process_command now cmd s = cmd_get_code (slot_int cmd) (command_entry now s) ∨
    process_command now cmd s
      = cmd_set_code (slot_int cmd) (strchr cmd ':') (command_entry now s) ∨
    process_command now cmd s = cmd_disconnect (command_entry now s) ∨
    process_command now cmd s = cmd_status (command_entry now s) ∨
    process_command now cmd s = cmd_unknown (command_entry now s) := by
  unfold process_command
  dsimp only
  split_ifs <;> simp only [true_or, or_true]

theorem send_message_last_cmd_time (msg : List Char) (s : Device) :
    (send_message msg s).last_cmd_time = s.last_cmd_time := by
  rw [send_message_frame]

theorem cmd_connect_last_cmd_time (s : Device) :
    (cmd_connect s).last_cmd_time = s.last_cmd_time := by
  simp only [cmd_connect, lcd_putstring, lcd_command, HAL_Delay, send_message_last_cmd_time]

theorem cmd_get_code_last_cmd_time (i : Int) (s : Device) :
    (cmd_get_code i s).last_cmd_time = s.last_cmd_time := by
  unfold cmd_get_code
  split <;> simp only [lcd_putstring, lcd_command, send_message_last_cmd_time]

theorem cmd_set_code_last_cmd_time (i : Int) (v : Option (List Char)) (s : Device) :
    (cmd_set_code i v s).last_cmd_time = s.last_cmd_time := by
  unfold cmd_set_code
  split <;> simp only [lcd_putstring, lcd_command, send_message_last_cmd_time]

theorem cmd_disconnect_last_cmd_time (s : Device) :
    (cmd_disconnect s).last_cmd_time = s.last_cmd_time := by
  simp only [cmd_disconnect, lcd_putstring, lcd_command, HAL_Delay, leds_all_on, leds_all_off,
    HAL_GPIO_WritePin, if_true, Bool.false_eq_true, if_false, send_message_last_cmd_time]

theorem cmd_status_last_cmd_time (s : Device) :
    (cmd_status s).last_cmd_time = s.last_cmd_time := by
  simp only [cmd_status, lcd_putstring, lcd_command, send_message_last_cmd_time]

theorem cmd_unknown_last_cmd_time (s : Device) :
    (cmd_unknown s).last_cmd_time = s.last_cmd_time := by
  simp only [cmd_unknown, lcd_putstring, lcd_command, send_message_last_cmd_time]

/-- Every command records the tick read at its entry. -/
theorem process_command_last_cmd_time (now : Nat) (cmd : List Char) (s : Device) :
    (process_command now cmd s).last_cmd_time = now := by
  rcases process_command_cases now cmd s with h | h | h | h | h | h <;> rw [h]
  · exact cmd_connect_last_cmd_time _
  · exact cmd_get_code_last_cmd_time _ _
  · exact cmd_set_code_last_cmd_time _ _ _
  · exact cmd_disconnect_last_cmd_time _
  · exact cmd_status_last_cmd_time _
  · exact cmd_unknown_last_cmd_time _

theorem u32_sub_add (t d : Nat) (hd : d < 2 ^ 32) : u32_sub ((t + d) % 2 ^ 32) t = d := by
  unfold u32_sub
  omega

theorem render_all_frame (ts : List Nat) : ∀ s : Device, render_frame s (render_all ts s) := by
  induction ts with
  | nil => intro s; exact render_frame_refl s
  | cons u ts ih =>
    intro s
    exact render_frame_trans (leds_update_frame u s) (ih _)

/-- C7: when a command dispatched at tick t leaves the mode `Single` and no further command is
dispatched, `check_led_timeout` run d milliseconds later (tick t + d modulo 2^32, d < 2^32),
after any render steps of the main loop in between, keeps `Single` for d < 3000 and switches to
the stored idle mode for d ≥ 3000. -/
theorem single_mode_timeout (t d : Nat) (cmd : List Char) (s : Device) (ts : List Nat)
    (hd : d < 2 ^ 32)
    (hs : (process_command t cmd s).led_mode = LED_Mode.LED_MODE_SINGLE) :
    (d < 3000 →
      (check_led_timeout ((t + d) % 2 ^ 32) (render_all ts (process_command t cmd s))).led_mode
        = LED_Mode.LED_MODE_SINGLE) ∧
    (3000 ≤ d →
      (check_led_timeout ((t + d) % 2 ^ 32) (render_all ts (process_command t cmd s))).led_mode
        = (process_command t cmd s).idle_led_mode) := by
  obtain ⟨-, hmode, hidle, -, htime, -⟩ := render_all_frame ts (process_command t cmd s)
  rw [hs] at hmode
  rw [process_command_last_cmd_time] at htime
  unfold check_led_timeout
  rw [htime, u32_sub_add t d hd]
  constructor
  · intro h
    rw [if_neg (by simp only [CMD_TIMEOUT]; omega)]
    exact hmode
  · intro h
    rw [if_pos ⟨hmode, by simp only [CMD_TIMEOUT]; omega⟩]
    exact hidle

theorem single_mode_timeout_witness :
    ((3000 < 2 ^ 32 ∧
      (process_command 4294967000 "GET_CODE_1".toList Device.boot).led_mode
        = LED_Mode.LED_MODE_SINGLE) ∧
    (check_led_timeout ((4294967000 + 3000) % 2 ^ 32)
      (render_all [4294967010, 2000] (process_command 4294967000 "GET_CODE_1".toList
        Device.boot))).led_mode
        = (process_command 4294967000 "GET_CODE_1".toList Device.boot).idle_led_mode) ∧
    ((2999 < 2 ^ 32 ∧
      (process_command 4294967000 "GET_CODE_1".toList Device.boot).led_mode
        = LED_Mode.LED_MODE_SINGLE) ∧
    (check_led_timeout ((4294967000 + 2999) % 2 ^ 32)
      (render_all [4294967010, 2000] (process_command 4294967000 "GET_CODE_1".toList
        Device.boot))).led_mode
        = LED_Mode.LED_MODE_SINGLE) :=
  ⟨⟨⟨by decide, by decide⟩,
    (single_mode_timeout 4294967000 3000 "GET_CODE_1".toList Device.boot [4294967010, 2000]
      (by decide) (by decide)).2 (by decide)⟩,
   ⟨⟨by decide, by decide⟩,
    (single_mode_timeout 4294967000 2999 "GET_CODE_1".toList Device.boot [4294967010, 2000]
      (by decide) (by decide)).1 (by decide)⟩⟩

/-! ## Blink cadence -/

theorem LED_PINS_testBit (i : Nat) (hi : i < 8) : LED_PINS.testBit i = true := by
  interval_cases i <;> decide

theorem leds_all_on_testBit (s : Device) (i : Nat) (hi : i < 8) :
    (leds_all_on s).gpiob.testBit i = true := by
  simp only [leds_all_on, HAL_GPIO_WritePin, if_true, Nat.testBit_or, LED_PINS_testBit i hi,
    Bool.or_true]

theorem leds_all_off_testBit (s : Device) (i : Nat) (hi : i < 8) :
    (leds_all_off s).gpiob.testBit i = false := by
  simp only [leds_all_off, HAL_GPIO_WritePin, Bool.false_eq_true, if_false, Nat.testBit_xor,
    Nat.testBit_and, LED_PINS_testBit i hi, Bool.and_true, Bool.xor_self]

theorem lnot_ne_self (x : Nat) : lnot x ≠ x := by
  unfold lnot
  split <;> omega

theorem leds_blink_all_toggle (now : Nat) (s : Device)
    (h : BLINK_INTERVAL ≤ u32_sub now s.last_toggle) :
    (leds_blink_all now s).blink_state = lnot s.blink_state ∧
      (∀ i, i < 8 → (leds_blink_all now s).gpiob.testBit i = decide (lnot s.blink_state ≠ 0)) ∧
      (leds_blink_all now s).last_toggle = now := by
  unfold leds_blink_all
  rw [if_pos h]
  dsimp only
  by_cases hp : lnot s.blink_state = 0
  · rw [if_neg (by simp [hp])]
    refine ⟨rfl, fun i hi => ?_, rfl⟩
    simp only [hp, ne_eq, not_true_eq_false, decide_False]
    exact leds_all_off_testBit _ i hi
  · rw [if_pos hp]
    refine ⟨rfl, fun i hi => ?_, rfl⟩
    simp only [hp, ne_eq, not_false_eq_true, decide_True]
    exact leds_all_on_testBit _ i hi

theorem leds_blink_all_wait (now : Nat) (s : Device)
    (h : u32_sub now s.last_toggle < BLINK_INTERVAL) : leds_blink_all now s = s := by
  unfold leds_blink_all
  rw [if_neg (by omega)]

theorem leds_update_blink_all (now : Nat) (s : Device)
    (hm : s.led_mode = LED_Mode.LED_MODE_BLINK_ALL) : leds_update now s = leds_blink_all now s := by
  unfold leds_update
  rw [hm]

theorem render_all_append (ts us : List Nat) (s : Device) :
    render_all (ts ++ us) s = render_all us (render_all ts s) := by
  unfold render_all
  rw [List.foldl_append]

theorem blink_flips_append (ts : List Nat) : ∀ (us : List Nat) (s : Device),
    blink_flips (ts ++ us) s = blink_flips ts s + blink_flips us (render_all ts s) := by
  induction ts with
  | nil => intro us s; simp [blink_flips, render_all]
  | cons t ts ih =>
    intro us s
    rw [List.cons_append]
    simp only [blink_flips]
    rw [ih us (leds_update t s)]
    simp only [render_all, List.foldl_cons]
    omega

theorem render_all_led_mode (ts : List Nat) : ∀ s : Device,
    (render_all ts s).led_mode = s.led_mode := by
  induction ts with
  | nil => intro s; rfl
  | cons t ts ih =>
    intro s
    simp only [render_all, List.foldl_cons] at ih ⊢
    rw [ih, (leds_update_frame t s).2.1]

/-- Render steps taken less than 500 ms after the last toggle change nothing and flip nothing. -/
theorem render_all_wait (ts : List Nat) (s : Device)
    (hm : s.led_mode = LED_Mode.LED_MODE_BLINK_ALL)
    (h : ∀ t ∈ ts, u32_sub t s.last_toggle < BLINK_INTERVAL) :
    render_all ts s = s ∧ blink_flips ts s = 0 := by
  induction ts with
  | nil => exact ⟨rfl, rfl⟩
  | cons t ts ih =>
    have ht := h t (List.mem_cons_self _ _)
    have hstep : leds_update t s = s := by
      rw [leds_update_blink_all t s hm, leds_blink_all_wait t s ht]
    have := ih (fun u hu => h u (List.mem_cons_of_mem _ hu))
    simp only [render_all, List.foldl_cons, blink_flips, hstep] at this ⊢
    exact ⟨this.1, by simp [this.2]⟩

/-! ## Effect of CONNECT, DISCONNECT and unknown commands -/

theorem process_command_connect (now : Nat) (s : Device) :
    process_command now "CONNECT".toList s = cmd_connect (command_entry now s) := by
  have h1 : strcmp "CONNECT".toList "CONNECT".toList = 0 := by decide
  unfold process_command
  simp only [h1, if_true]

theorem process_command_disconnect (now : Nat) (s : Device) :
    process_command now "DISCONNECT".toList s = cmd_disconnect (command_entry now s) := by
  have h1 : ¬ strcmp "DISCONNECT".toList "CONNECT".toList = 0 := by decide
  have h2 : ¬ strncmp "DISCONNECT".toList "GET_CODE_".toList 9 = 0 := by decide
  have h3 : ¬ strncmp "DISCONNECT".toList "SET_CODE_".toList 9 = 0 := by decide
  have h4 : strcmp "DISCONNECT".toList "DISCONNECT".toList = 0 := by decide
  unfold process_command
  simp only [h1, h2, h3, h4, if_true, if_false]

/-- A command that matches none of the five command words takes the final branch. -/
theorem process_command_unknown (now : Nat) (cmd : List Char) (s : Device)
    (h1 : cstr cmd ≠ "CONNECT".toList) (h2 : (cstr cmd).take 9 ≠ "GET_CODE_".toList)
    (h3 : (cstr cmd).take 9 ≠ "SET_CODE_".toList) (h4 : cstr cmd ≠ "DISCONNECT".toList)
    (h5 : cstr cmd ≠ "STATUS".toList) :
    process_command now cmd s = cmd_unknown (command_entry now s) := by
  have e1 : ¬ strcmp cmd "CONNECT".toList = 0 := by rw [strcmp_eq_zero_iff]; exact h1
  have e2 : ¬ strncmp cmd "GET_CODE_".toList 9 = 0 := by rw [strncmp_eq_zero_iff]; exact h2
  have e3 : ¬ strncmp cmd "SET_CODE_".toList 9 = 0 := by rw [strncmp_eq_zero_iff]; exact h3
  have e4 : ¬ strcmp cmd "DISCONNECT".toList = 0 := by rw [strcmp_eq_zero_iff]; exact h4
  have e5 : ¬ strcmp cmd "STATUS".toList = 0 := by rw [strcmp_eq_zero_iff]; exact h5
  unfold process_command
  simp only [e1, e2, e3, e4, e5, if_false]

theorem cmd_connect_eq (s : Device) :
    cmd_connect s =
      { s with
        uart_tx := s.uart_tx ++ ["OK".toList ++ [LF]]
        lcd := s.lcd ++ [LcdOp.putstring "Connected".toList, LcdOp.command LcdCmd.LINE_TWO,
          LcdOp.putstring "UART OK".toList]
        led_mode := LED_Mode.LED_MODE_BLINK_ALL
        idle_led_mode := LED_Mode.LED_MODE_BLINK_ALL
        pauses := s.pauses ++ [(1000, s.gpiob)] } := by
  unfold cmd_connect
  rw [send_message_short "OK".toList _ (by decide)]
  simp only [lcd_putstring, lcd_command, HAL_Delay, List.append_assoc, List.singleton_append]
  rfl

theorem cmd_unknown_eq (s : Device) :
    cmd_unknown s =
      { s with
        uart_tx := s.uart_tx ++ ["ERR:UNKNOWN_CMD".toList ++ [LF]]
        lcd := s.lcd ++ [LcdOp.putstring "CMD ERR".toList, LcdOp.command LcdCmd.LINE_TWO,
          LcdOp.putstring "Unknown Command".toList]
        led_mode := LED_Mode.LED_MODE_BLINK_ODD } := by
  unfold cmd_unknown
  rw [send_message_short "ERR:UNKNOWN_CMD".toList _ (by decide)]
  simp only [lcd_putstring, lcd_command, List.append_assoc, List.singleton_append]
  rfl

theorem cmd_disconnect_eq (s : Device) :
    cmd_disconnect s =
      { s with
        uart_tx := s.uart_tx ++ ["BYE".toList ++ [LF]]
        lcd := s.lcd ++ [LcdOp.putstring "Disconnected".toList, LcdOp.command LcdCmd.LINE_TWO,
          LcdOp.putstring "Bye".toList]
        gpiob := (s.gpiob ||| LED_PINS) ^^^ ((s.gpiob ||| LED_PINS) &&& LED_PINS)
        pauses := s.pauses ++ [(1000, s.gpiob ||| LED_PINS)]
        led_mode := LED_Mode.LED_MODE_NONE
        idle_led_mode := LED_Mode.LED_MODE_NONE } := by
  unfold cmd_disconnect
  rw [send_message_short "BYE".toList _ (by decide)]
  simp only [lcd_putstring, lcd_command, HAL_Delay, leds_all_on, leds_all_off,
    HAL_GPIO_WritePin, if_true, Bool.false_eq_true, if_false, List.append_assoc,
    List.singleton_append]
  rfl

/-- The transmissions of a `SET_CODE_` followed by a `GET_CODE_` of the same slot. -/
theorem set_then_get_tx (s : Device) (i : Fin 3) (d : Char) (hd : d.toNat = 49 + i.val)
    (t1 t2 : Nat) (v : List Char) (hv : ∀ c ∈ v, c ≠ NUL) :
    (process_command t1 ("SET_CODE_".toList ++ d :: ':' :: v) s).uart_tx
        = s.uart_tx ++ ["SAVED".toList ++ [LF]] ∧
      (process_command t2 ("GET_CODE_".toList ++ [d])
        (process_command t1 ("SET_CODE_".toList ++ d :: ':' :: v) s)).uart_tx
        = s.uart_tx ++ ["SAVED".toList ++ [LF]] ++
            ["CODE_".toList ++ d :: ':' :: v.take 19 ++ [LF]] := by
  have hset := set_code_effect t1 s i d hd [] v (by simp)
  rw [List.nil_append] at hset
  rw [hset, get_code_effect t2 _ i d hd []]
  refine ⟨rfl, ?_⟩
  simp only [Function.update_same, cstr_strncpy_set, cstr_eq_self hv]
  have hlen : ("CODE_".toList ++ d :: ':' :: List.take MAX_CODE_LENGTH v).length ≤ 49 := by
    simp only [List.length_append, List.length_cons, List.length_take, MAX_CODE_LENGTH]
    have : "CODE_".toList.length = 5 := rfl
    omega
  rw [List.take_of_length_le hlen]
  simp [MAX_CODE_LENGTH]

/-! ## A session -/

theorem connect_tx (now : Nat) (s : Device) :
    (process_command now "CONNECT".toList s).uart_tx = s.uart_tx ++ ["OK".toList ++ [LF]] ∧
      (process_command now "CONNECT".toList s).led_mode = LED_Mode.LED_MODE_BLINK_ALL := by
  rw [process_command_connect, cmd_connect_eq]
  exact ⟨rfl, rfl⟩

theorem disconnect_tx (now : Nat) (s : Device) :
    (process_command now "DISCONNECT".toList s).uart_tx = s.uart_tx ++ ["BYE".toList ++ [LF]] ∧
      (process_command now "DISCONNECT".toList s).led_mode = LED_Mode.LED_MODE_NONE := by
  rw [process_command_disconnect, cmd_disconnect_eq]
  exact ⟨rfl, rfl⟩

theorem foo_tx (now : Nat) (s : Device) :
    (process_command now "FOO".toList s).uart_tx
        = s.uart_tx ++ ["ERR:UNKNOWN_CMD".toList ++ [LF]] ∧
      (process_command now "FOO".toList s).led_mode = LED_Mode.LED_MODE_BLINK_ODD := by
  rw [process_command_unknown now "FOO".toList s (by decide) (by decide) (by decide)
    (by decide) (by decide), cmd_unknown_eq]
  exact ⟨rfl, rfl⟩

/-- C9: from the state at the start of the main loop (all slots empty), the commands CONNECT,
SET_CODE_2:hunter2, GET_CODE_2, FOO, DISCONNECT, dispatched at any ticks, are answered OK,
SAVED, CODE_2:hunter2, ERR:UNKNOWN_CMD, BYE in that order; the LED mode is BlinkAll after
CONNECT, BlinkOdd after FOO and None after DISCONNECT. -/
theorem scenario_connect_set_get_foo_disconnect (t1 t2 t3 t4 t5 : Nat) :
    (∀ i, cstr (Device.boot.access_code i) = []) ∧
    (dispatch_all [(t1, "CONNECT".toList)] Device.boot).uart_tx
      = Device.boot.uart_tx ++ ["OK\n".toList] ∧
    (dispatch_all [(t1, "CONNECT".toList)] Device.boot).led_mode
      = LED_Mode.LED_MODE_BLINK_ALL ∧
    (dispatch_all [(t1, "CONNECT".toList), (t2, "SET_CODE_2:hunter2".toList)]
        Device.boot).uart_tx
      = Device.boot.uart_tx ++ ["OK\n".toList, "SAVED\n".toList] ∧
    (dispatch_all [(t1, "CONNECT".toList), (t2, "SET_CODE_2:hunter2".toList),
        (t3, "GET_CODE_2".toList)] Device.boot).uart_tx
      = Device.boot.uart_tx ++ ["OK\n".toList, "SAVED\n".toList, "CODE_2:hunter2\n".toList] ∧
    (dispatch_all [(t1, "CONNECT".toList), (t2, "SET_CODE_2:hunter2".toList),
        (t3, "GET_CODE_2".toList), (t4, "FOO".toList)] Device.boot).uart_tx
      = Device.boot.uart_tx ++ ["OK\n".toList, "SAVED\n".toList, "CODE_2:hunter2\n".toList,
          "ERR:UNKNOWN_CMD\n".toList] ∧
    (dispatch_all [(t1, "CONNECT".toList), (t2, "SET_CODE_2:hunter2".toList),
        (t3, "GET_CODE_2".toList), (t4, "FOO".toList)] Device.boot).led_mode
      = LED_Mode.LED_MODE_BLINK_ODD ∧
    (dispatch_all [(t1, "CONNECT".toList), (t2, "SET_CODE_2:hunter2".toList),
        (t3, "GET_CODE_2".toList), (t4, "FOO".toList), (t5, "DISCONNECT".toList)]
        Device.boot).uart_tx
      = Device.boot.uart_tx ++ ["OK\n".toList, "SAVED\n".toList, "CODE_2:hunter2\n".toList,
          "ERR:UNKNOWN_CMD\n".toList, "BYE\n".toList] ∧
    (dispatch_all [(t1, "CONNECT".toList), (t2, "SET_CODE_2:hunter2".toList),
        (t3, "GET_CODE_2".toList), (t4, "FOO".toList), (t5, "DISCONNECT".toList)]
        Device.boot).led_mode
      = LED_Mode.LED_MODE_NONE := by
  simp only [dispatch_all, List.foldl_cons, List.foldl_nil]
  have h1 := connect_tx t1 Device.boot
  have h23 := set_then_get_tx (process_command t1 "CONNECT".toList Device.boot) 1 '2'
    (by decide) t2 t3 "hunter2".toList (by decide)
  have h2 : (process_command t2 "SET_CODE_2:hunter2".toList
      (process_command t1 "CONNECT".toList Device.boot)).uart_tx
      = (process_command t1 "CONNECT".toList Device.boot).uart_tx ++ ["SAVED".toList ++ [LF]] :=
    h23.1
  have h3 : (process_command t3 "GET_CODE_2".toList (process_command t2 "SET_CODE_2:hunter2".toList
      (process_command t1 "CONNECT".toList Device.boot))).uart_tx
      = (process_command t1 "CONNECT".toList Device.boot).uart_tx ++ ["SAVED".toList ++ [LF]] ++
        ["CODE_2:hunter2".toList ++ [LF]] := h23.2
  have h4 := foo_tx t4 (process_command t3 "GET_CODE_2".toList
    (process_command t2 "SET_CODE_2:hunter2".toList
      (process_command t1 "CONNECT".toList Device.boot)))
  have h5 := disconnect_tx t5 (process_command t4 "FOO".toList
    (process_command t3 "GET_CODE_2".toList (process_command t2 "SET_CODE_2:hunter2".toList
      (process_command t1 "CONNECT".toList Device.boot))))
  refine ⟨fun i => ?_, ?_, h1.2, ?_, ?_, ?_, h4.2, ?_, h5.2⟩
  · fin_cases i <;> rfl
  · rw [h1.1]; rfl
  · rw [h2, h1.1]; rfl
  · rw [h3, h1.1]; rfl
  · rw [h4.1, h3, h1.1]; rfl
  · rw [h5.1, h4.1, h3, h1.1]; rfl

/-! ## One response per command -/

theorem send_message_access_code (msg : List Char) (s : Device) :
    (send_message msg s).access_code = s.access_code := by
  rw [send_message_frame]

theorem cmd_get_code_access_code (i : Int) (s : Device) :
    (cmd_get_code i s).access_code = s.access_code := by
  unfold cmd_get_code
  split <;> simp only [lcd_putstring, lcd_command, send_message_access_code]

theorem cmd_status_access_code (s : Device) : (cmd_status s).access_code = s.access_code := by
  simp only [cmd_status, lcd_putstring, lcd_command, send_message_access_code]

/-- What `SET_CODE_` does to the slots: nothing, or slot `i` receives the first 19 characters
of the text after the separator. -/
theorem cmd_set_code_access_code (i : Int) (value : Option (List Char)) (s : Device) :
    (cmd_set_code i value s).access_code = s.access_code ∨
    ∃ (k : Fin 3) (v : List Char), (k.val : Int) = i ∧ value = some v ∧
      (cmd_set_code i value s).access_code = Function.update s.access_code k
        ((strncpy (s.access_code k) v.tail MAX_CODE_LENGTH).set MAX_CODE_LENGTH NUL) := by
  by_cases h : (0 ≤ i ∧ i < 3) ∧ value.isSome
  · right
    obtain ⟨v, hv⟩ := Option.isSome_iff_exists.mp h.2
    subst hv
    obtain ⟨k, hk⟩ : ∃ k : Fin 3, (k.val : Int) = i :=
      ⟨⟨i.toNat, by omega⟩, by simp only; omega⟩
    subst hk
    refine ⟨k, v, rfl, rfl, ?_⟩
    rw [cmd_set_code_valid]
    simp only [lcd_putstring, lcd_command, send_message_access_code]
  · left
    rw [cmd_set_code_invalid i value s h]
    simp only [lcd_putstring, lcd_command, send_message_access_code]

/-- The characters after a separator found by `strchr` are characters of the string. -/
theorem mem_of_strchr (c : Char) (hc : c ≠ NUL) : ∀ (p q : List Char), strchr p c = some q →
    ∀ x ∈ cstr q.tail, x ∈ cstr p := by
  intro p
  induction p with
  | nil => intro q h; simp [strchr, hc] at h
  | cons a p ih =>
    intro q h x hx
    unfold strchr at h
    by_cases hac : a = c
    · have ha : a ≠ NUL := hac ▸ hc
      simp only [hac, beq_self_eq_true, if_true, Option.some.injEq] at h
      subst h
      rw [List.tail_cons] at hx
      rw [cstr_cons, if_neg ha]
      exact List.mem_cons_of_mem _ hx
    · by_cases ha : a = NUL
      · simp [hac, ha] at h
        exact absurd (ha ▸ h.1 : NUL = c) (fun e => hc e.symm)
      · simp only [beq_iff_eq, hac, ha, if_false] at h
        rw [cstr_cons, if_neg ha]
        exact List.mem_cons_of_mem _ (ih q h x hx)

theorem slot_digit_of_index (i : Fin 3) :
    ∃ d : Char, d.toNat = 49 + i.val ∧ Nat.toDigits 10 (i.val + 1) = [d] ∧ d ≠ LF := by
  fin_cases i
  · exact ⟨'1', by decide, by decide, by decide⟩
  · exact ⟨'2', by decide, by decide, by decide⟩
  · exact ⟨'3', by decide, by decide, by decide⟩

/-- The one transmission of a `GET_CODE_` with a valid slot index, in any state. -/
theorem cmd_get_code_tx (s : Device) (i : Fin 3) :
    (cmd_get_code (i.val : Int) s).uart_tx = s.uart_tx ++
      [("CODE_".toList ++ Nat.toDigits 10 (i.val + 1) ++ ':' :: cstr (s.access_code i)).take 49
        ++ [LF]] := by
  obtain ⟨d, hd, hdig, -⟩ := slot_digit_of_index i
  have hdne := slot_char_ne i d hd
  have hmsg : cstr (snprintf 50 ("CODE_".toList ++ fmt_d ((i.val : Int) + 1) ++ ":".toList ++
      cstr (s.access_code i))).1 = ("CODE_".toList ++ d :: ':' :: cstr (s.access_code i)).take 49 := by
    rw [fmt_d_slot i d hd, cstr_snprintf_literal]
    · rfl
    · intro c hc
      rw [List.mem_append, List.mem_append, List.mem_append, List.mem_singleton] at hc
      rcases hc with ((hc | hc) | hc) | hc
      · revert c; decide
      · rw [hc]; exact hdne.2
      · revert c; decide
      · exact not_NUL_of_mem_cstr hc
  rw [cmd_get_code_valid]
  simp only [lcd_putstring, lcd_command]
  rw [send_message_short _ _ (by rw [hmsg, List.length_take]; omega), hmsg, hdig]
  rfl

theorem cmd_get_code_invalid_tx (i : Int) (s : Device) (hi : ¬ (0 ≤ i ∧ i < 3)) :
    (cmd_get_code i s).uart_tx = s.uart_tx ++ ["ERR:INVALID_SLOT".toList ++ [LF]] := by
  rw [cmd_get_code_invalid i s hi, send_message_short "ERR:INVALID_SLOT".toList _ (by decide)]
  rfl

/-- The one transmission of the `SET_CODE_` branch, in any state. -/
theorem cmd_set_code_tx (i : Int) (value : Option (List Char)) (s : Device) :
    (cmd_set_code i value s).uart_tx = s.uart_tx ++ ["SAVED".toList ++ [LF]] ∨
    (cmd_set_code i value s).uart_tx = s.uart_tx ++ ["ERR:INVALID_FORMAT".toList ++ [LF]] := by
  by_cases h : (0 ≤ i ∧ i < 3) ∧ value.isSome
  · left
    obtain ⟨v, hv⟩ := Option.isSome_iff_exists.mp h.2
    subst hv
    obtain ⟨k, hk⟩ : ∃ k : Fin 3, (k.val : Int) = i :=
      ⟨⟨i.toNat, by omega⟩, by simp only; omega⟩
    subst hk
    rw [cmd_set_code_valid]
    simp only [lcd_putstring, lcd_command]
    rw [send_message_short "SAVED".toList _ (by decide)]
    rfl
  · right
    rw [cmd_set_code_invalid i value s h,
      send_message_short "ERR:INVALID_FORMAT".toList _ (by decide)]
    rfl

/-- The one transmission of `STATUS`, in any state. -/
theorem cmd_status_tx (s : Device) :
    ∃ k, k ≤ 3 ∧ (cmd_status s).uart_tx = s.uart_tx ++
      ["STATUS:OK,CODES:".toList ++ Nat.toDigits 10 k ++ "/3".toList ++ [LF]] := by
  have hk : (Finset.univ.filter (fun i : Fin 3 => cstr (s.access_code i) ≠ [])).card ≤ 3 := by
    have := Finset.card_filter_le (Finset.univ : Finset (Fin 3))
      (fun i : Fin 3 => cstr (s.access_code i) ≠ [])
    simpa using this
  refine ⟨_, hk, ?_⟩
  rw [cmd_status_eq s _ hk (stored_count_eq s)]

/-- In any state a command causes exactly one transmission: one of the fixed answers, a
`STATUS` line, or a `CODE_` line (cut to the 49 characters of the message buffer). -/
theorem process_command_response (now : Nat) (cmd : List Char) (s : Device) :
    ∃ resp : List Char, (process_command now cmd s).uart_tx = s.uart_tx ++ [resp ++ [LF]] ∧
      (resp ∈ ["OK".toList, "BYE".toList, "SAVED".toList, "ERR:INVALID_SLOT".toList,
          "ERR:INVALID_FORMAT".toList, "ERR:UNKNOWN_CMD".toList] ∨
        (∃ k, k ≤ 3 ∧ resp = "STATUS:OK,CODES:".toList ++ Nat.toDigits 10 k ++ "/3".toList) ∨
        (∃ i : Fin 3, resp = ("CODE_".toList ++ Nat.toDigits 10 (i.val + 1) ++
          ':' :: cstr (s.access_code i)).take 49)) := by
  rcases process_command_cases now cmd s with h | h | h | h | h | h <;> rw [h]
  · exact ⟨_, by rw [cmd_connect_eq]; rfl, Or.inl (by decide)⟩
  · by_cases hi : 0 ≤ slot_int cmd ∧ slot_int cmd < 3
    · obtain ⟨k, hk⟩ : ∃ k : Fin 3, (k.val : Int) = slot_int cmd :=
        ⟨⟨(slot_int cmd).toNat, by omega⟩, by simp only; omega⟩
      rw [← hk]
      exact ⟨_, cmd_get_code_tx _ k, Or.inr (Or.inr ⟨k, rfl⟩)⟩
    · exact ⟨_, cmd_get_code_invalid_tx _ _ hi, Or.inl (by decide)⟩
  · rcases cmd_set_code_tx (slot_int cmd) (strchr cmd ':') (command_entry now s) with e | e
    · exact ⟨_, e, Or.inl (by decide)⟩
    · exact ⟨_, e, Or.inl (by decide)⟩
  · exact ⟨_, by rw [cmd_disconnect_eq]; rfl, Or.inl (by decide)⟩
  · obtain ⟨k, hk, e⟩ := cmd_status_tx (command_entry now s)
    exact ⟨_, e, Or.inr (Or.inl ⟨k, hk, rfl⟩)⟩
  · exact ⟨_, by rw [cmd_unknown_eq]; rfl, Or.inl (by decide)⟩

/-- The slots after a command: unchanged, or one of them holds the first 19 characters of
the text after the first separator of the command. -/
theorem process_command_access_code (now : Nat) (cmd : List Char) (s : Device) :
    (process_command now cmd s).access_code = s.access_code ∨
    ∃ (k : Fin 3) (v : List Char), strchr cmd ':' = some v ∧
      (process_command now cmd s).access_code = Function.update s.access_code k
        ((strncpy (s.access_code k) v.tail MAX_CODE_LENGTH).set MAX_CODE_LENGTH NUL) := by
  rcases process_command_cases now cmd s with h | h | h | h | h | h <;> rw [h]
  · left; rw [cmd_connect_eq]; rfl
  · left; rw [cmd_get_code_access_code]; rfl
  · rcases cmd_set_code_access_code (slot_int cmd) (strchr cmd ':') (command_entry now s)
      with e | ⟨k, v, -, hv, e⟩
    · left; rw [e]; rfl
    · right; exact ⟨k, v, hv, e⟩
  · left; rw [cmd_disconnect_eq]; rfl
  · left; rw [cmd_status_access_code]; rfl
  · left; rw [cmd_unknown_eq]; rfl

/-- A command keeps every stored code at 19 characters or less. -/
theorem process_command_slot_bound (now : Nat) (cmd : List Char) (s : Device)
    (h : ∀ i, (cstr (s.access_code i)).length ≤ 19) :
    ∀ i, (cstr ((process_command now cmd s).access_code i)).length ≤ 19 := by
  intro i
  rcases process_command_access_code now cmd s with e | ⟨k, v, -, e⟩
  · rw [e]; exact h i
  · rw [e]
    by_cases hik : i = k
    · subst hik
      rw [Function.update_same, cstr_strncpy_set, List.length_take]
      simp only [MAX_CODE_LENGTH]
      omega
    · rw [Function.update_noteq hik]; exact h i

/-! ## Unknown commands -/

/-- C11: a command string that is none of `CONNECT`, `DISCONNECT`, `STATUS` and does not
start with `GET_CODE_` or `SET_CODE_` (the comparison is exact, case and trailing blanks
included) is answered exactly `ERR:UNKNOWN_CMD`, sets the LED mode to BlinkOdd and leaves the
slots and the idle mode unchanged. -/
theorem unknown_command_rejected (now : Nat) (cmd : List Char) (s : Device)
    (h1 : cstr cmd ≠ "CONNECT".toList) (h2 : cstr cmd ≠ "DISCONNECT".toList)
    (h3 : cstr cmd ≠ "STATUS".toList) (h4 : (cstr cmd).take 9 ≠ "GET_CODE_".toList)
    (h5 : (cstr cmd).take 9 ≠ "SET_CODE_".toList) :
    (process_command now cmd s).uart_tx = s.uart_tx ++ ["ERR:UNKNOWN_CMD".toList ++ [LF]] ∧
    (process_command now cmd s).led_mode = LED_Mode.LED_MODE_BLINK_ODD ∧
    (process_command now cmd s).access_code = s.access_code ∧
    (process_command now cmd s).idle_led_mode = s.idle_led_mode := by
  rw [process_command_unknown now cmd s h1 h4 h5 h2 h3, cmd_unknown_eq]
  exact ⟨rfl, rfl, rfl, rfl⟩

theorem unknown_command_rejected_witness :
    ((process_command 5 "connect".toList Device.boot).uart_tx
        = ["STM Ready\n".toList, "ERR:UNKNOWN_CMD\n".toList] ∧
      (process_command 5 "connect".toList Device.boot).led_mode = LED_Mode.LED_MODE_BLINK_ODD ∧
      (process_command 5 "connect".toList Device.boot).access_code = Device.boot.access_code ∧
      (process_command 5 "connect".toList Device.boot).idle_led_mode
        = Device.boot.idle_led_mode) ∧
    ((process_command 5 "CONNECT ".toList Device.boot).uart_tx
        = ["STM Ready\n".toList, "ERR:UNKNOWN_CMD\n".toList] ∧
      (process_command 5 "CONNECT ".toList Device.boot).led_mode = LED_Mode.LED_MODE_BLINK_ODD ∧
      (process_command 5 "CONNECT ".toList Device.boot).access_code = Device.boot.access_code ∧
      (process_command 5 "CONNECT ".toList Device.boot).idle_led_mode
        = Device.boot.idle_led_mode) :=
  ⟨unknown_command_rejected 5 "connect".toList Device.boot (by decide) (by decide) (by decide)
      (by decide) (by decide),
    unknown_command_rejected 5 "CONNECT ".toList Device.boot (by decide) (by decide) (by decide)
      (by decide) (by decide)⟩

/-! ## Which commands change the slots -/

/-- The `SET_CODE_` branch with a valid slot index and a separator, as one state update. -/
theorem cmd_set_code_some (s : Device) (k : Fin 3) (v : List Char) :
    cmd_set_code (k.val : Int) (some v) s =
      { s with
        access_code := Function.update s.access_code k
          ((strncpy (s.access_code k) v.tail MAX_CODE_LENGTH).set MAX_CODE_LENGTH NUL)
        uart_tx := s.uart_tx ++ ["SAVED".toList ++ [LF]]
        lcd := s.lcd ++ [LcdOp.putstring "SET CODE".toList, LcdOp.command LcdCmd.LINE_TWO,
          LcdOp.putstring (cstr (snprintf 17
            ("Slot ".toList ++ fmt_d ((k.val : Int) + 1) ++ " Saved".toList)).1)]
        single_led := k.val
        led_mode := LED_Mode.LED_MODE_SINGLE } := by
  have hlt : k.val % 256 = k.val := Nat.mod_eq_of_lt (by have := k.isLt; omega)
  rw [cmd_set_code_valid]
  simp only [lcd_putstring, lcd_command, hlt]
  rw [send_message_short "SAVED".toList _ (by decide)]
  simp only [List.append_assoc, List.singleton_append]
  rfl

/-- The first ten characters of a command whose first nine are a command word and whose
slot selector is in range. -/
theorem take_ten_of_slot (cmd word : List Char) (k : Fin 3) (hw : word.length = 9)
    (h9 : (cstr cmd).take 9 = word) (hk : slot_int cmd = (k.val : Int)) :
    (cstr cmd).take 10 = word ++ Nat.toDigits 10 (k.val + 1) := by
  obtain ⟨d, hd, hdig, -⟩ := slot_digit_of_index k
  have hdne := (slot_char_ne k d hd).2
  have hget : cmd.getD 9 NUL = d := by
    apply char_eq_of_toNat
    unfold slot_int at hk
    have h49 : ('1').toNat = 49 := rfl
    rw [h49] at hk
    omega
  have hlen9 : 9 ≤ (cstr cmd).length := by
    have := congrArg List.length h9
    rw [List.length_take, hw] at this
    omega
  have hpre : cstr cmd <+: cmd := List.takeWhile_prefix _
  obtain ⟨t, ht⟩ := hpre
  have hcmd9 : cmd.take 9 = word := by
    rw [← ht, List.take_append_of_le_length hlen9, h9]
  have hsplit : cmd = word ++ cmd.drop 9 := by
    rw [← hcmd9, List.take_append_drop]
  have hdrop : (cmd.drop 9).headD NUL = d := by
    rw [← hget, List.getD_eq_getElem?_getD, List.headD_eq_head?_getD, List.head?_drop]
  have hwn : ∀ c ∈ word, c ≠ NUL := by
    intro c hc
    rw [← h9] at hc
    exact not_NUL_of_mem_cstr (List.mem_of_mem_take hc)
  rw [hsplit, cstr_append_left _ hwn, hdig]
  cases hrest : cmd.drop 9 with
  | nil =>
    rw [hrest] at hdrop
    exact absurd hdrop.symm hdne
  | cons x xs =>
    rw [hrest, List.headD_cons] at hdrop
    subst hdrop
    rw [cstr_cons, if_neg hdne, List.take_append_eq_append_take, hw,
      List.take_of_length_le (by omega)]
    rfl

/-- C12: a command leaves the three slots unchanged, unless it is a `SET_CODE_<n>` command
answered `SAVED`; then only slot n - 1 may change. -/
theorem slots_changed_only_by_set_code (now : Nat) (cmd : List Char) (s : Device) :
    (process_command now cmd s).access_code = s.access_code ∨
    ∃ k : Fin 3, (cstr cmd).take 10 = "SET_CODE_".toList ++ Nat.toDigits 10 (k.val + 1) ∧
      (process_command now cmd s).uart_tx = s.uart_tx ++ ["SAVED".toList ++ [LF]] ∧
      ∀ j : Fin 3, j ≠ k → (process_command now cmd s).access_code j = s.access_code j := by
  unfold process_command
  dsimp only
  split_ifs with c1 c2 c3 c4 c5
  · left; rw [cmd_connect_eq]; rfl
  · left; rw [cmd_get_code_access_code]; rfl
  · rcases cmd_set_code_access_code (slot_int cmd) (strchr cmd ':') (command_entry now s)
      with e | ⟨k, v, hk, hv, -⟩
    · left; rw [e]; rfl
    · right
      rw [strncmp_eq_zero_iff] at c3
      refine ⟨k, take_ten_of_slot cmd "SET_CODE_".toList k rfl c3 hk.symm, ?_, ?_⟩
      · rw [← hk, hv, cmd_set_code_some]; rfl
      · intro j hj
        rw [← hk, hv, cmd_set_code_some]
        exact Function.update_noteq hj _ _
  · left; rw [cmd_disconnect_eq]; rfl
  · left; rw [cmd_status_access_code]; rfl
  · left; rw [cmd_unknown_eq]; rfl

/-! ## The pause of CONNECT -/

/-- C13, on the code: `CONNECT` sets the mode to AllOn for its pause but never writes the
port, so the port shows during the 1000 ms pause what it showed before; after a `DISCONNECT`
all eight LEDs are off during the pause of the next `CONNECT`. The mode is BlinkAll
afterwards. -/
theorem connect_pause_shows_previous_leds (now : Nat) (s : Device) :
    (process_command now "CONNECT".toList s).pauses = s.pauses ++ [(1000, s.gpiob)] ∧
    (process_command now "CONNECT".toList s).gpiob = s.gpiob ∧
    (process_command now "CONNECT".toList s).led_mode = LED_Mode.LED_MODE_BLINK_ALL ∧
    (process_command 2000 "CONNECT".toList
      (process_command 0 "DISCONNECT".toList Device.boot)).pauses
      = [(1000, 255), (1000, 255), (1000, 0)] := by
  rw [process_command_connect, cmd_connect_eq]
  refine ⟨rfl, rfl, rfl, ?_⟩
  decide

/-! ## The single LED after GET_CODE_ and SET_CODE_ -/

theorem LED_PINS_eq : LED_PINS = 255 := by decide

theorem leds_set_testBit (p : Nat) (hp : p < 8) (s : Device) (i : Nat) (hi : i < 8) :
    (leds_set p s).gpiob.testBit i = decide (p = i) := by
  unfold leds_set
  rw [if_pos hp]
  simp only [leds_all_off, HAL_GPIO_WritePin, Bool.false_eq_true, if_false, if_true,
    Nat.testBit_or, Nat.testBit_xor, Nat.testBit_and, LED_PINS_testBit i hi, Bool.and_true,
    Bool.xor_self, Bool.false_or, Nat.one_shiftLeft, Nat.testBit_two_pow]

/-- With a pin below 8, `leds_set` leaves exactly that LED on. -/
theorem leds_set_mask (p : Nat) (hp : p < 8) (s : Device) :
    (leds_set p s).gpiob % 256 = 2 ^ p := by
  apply Nat.eq_of_testBit_eq
  intro i
  have h256 : 256 = 2 ^ 8 := rfl
  rw [h256, Nat.testBit_mod_two_pow, Nat.testBit_two_pow]
  by_cases hi : i < 8
  · rw [leds_set_testBit p hp s i hi]
    simp [hi]
  · have hne : p ≠ i := by omega
    simp [hi, hne]

theorem leds_update_single (now : Nat) (s : Device)
    (h : s.led_mode = LED_Mode.LED_MODE_SINGLE) : leds_update now s = leds_set s.single_led s := by
  unfold leds_update
  rw [h]

/-- C14: for n in 1..3, a `GET_CODE_<n>` answered with a code leaves the mode Single with
target n, a `SET_CODE_<n>:<v>` answered `SAVED` leaves it Single with target n - 1, and the
next render step drives exactly that LED: bank mask 2^n after the GET, 2^(n-1) after the
SET. -/
theorem single_led_after_get_and_set (n : Nat) (hn : 1 ≤ n ∧ n ≤ 3) (s : Device)
    (t1 t2 : Nat) (v : List Char) :
    ((process_command t1 ("GET_CODE_".toList ++ Nat.toDigits 10 n) s).led_mode
        = LED_Mode.LED_MODE_SINGLE ∧
      (process_command t1 ("GET_CODE_".toList ++ Nat.toDigits 10 n) s).single_led = n ∧
      (leds_update t2 (process_command t1 ("GET_CODE_".toList ++ Nat.toDigits 10 n) s)).gpiob
        % 256 = 2 ^ n) ∧
    ((process_command t1 ("SET_CODE_".toList ++ Nat.toDigits 10 n ++ ':' :: v) s).uart_tx
        = s.uart_tx ++ ["SAVED".toList ++ [LF]] ∧
      (process_command t1 ("SET_CODE_".toList ++ Nat.toDigits 10 n ++ ':' :: v) s).led_mode
        = LED_Mode.LED_MODE_SINGLE ∧
      (process_command t1 ("SET_CODE_".toList ++ Nat.toDigits 10 n ++ ':' :: v) s).single_led
        = n - 1 ∧
      (leds_update t2
        (process_command t1 ("SET_CODE_".toList ++ Nat.toDigits 10 n ++ ':' :: v) s)).gpiob
        % 256 = 2 ^ (n - 1)) := by
  obtain ⟨i, d, hin, hd, hdig⟩ := slot_digit n hn
  have hi3 := i.isLt
  have hset : "SET_CODE_".toList ++ Nat.toDigits 10 n ++ ':' :: v
      = "SET_CODE_".toList ++ d :: ([] ++ ':' :: v) := by rw [hdig]; simp
  have hget : "GET_CODE_".toList ++ Nat.toDigits 10 n = "GET_CODE_".toList ++ d :: [] := by
    rw [hdig]
  rw [hset, hget, set_code_effect t1 s i d hd [] v (by simp), get_code_effect t1 s i d hd []]
  refine ⟨⟨rfl, hin, ?_⟩, rfl, rfl, ?_, ?_⟩
  · rw [leds_update_single _ _ rfl]
    simp only [hin]
    exact leds_set_mask n (by omega) _
  · show i.val = n - 1
    omega
  · rw [leds_update_single _ _ rfl]
    have e : i.val = n - 1 := by omega
    simp only [e]
    exact leds_set_mask (n - 1) (by omega) _

theorem single_led_after_get_and_set_witness :
    (1 ≤ 3 ∧ 3 ≤ 3) ∧
    (process_command 5 "GET_CODE_3".toList Device.boot).single_led = 3 ∧
    (leds_update 9 (process_command 5 "GET_CODE_3".toList Device.boot)).gpiob % 256 = 8 ∧
    (process_command 5 "SET_CODE_3:k".toList Device.boot).single_led = 2 ∧
    (leds_update 9 (process_command 5 "SET_CODE_3:k".toList Device.boot)).gpiob % 256 = 4 :=
  ⟨by decide,
    (single_led_after_get_and_set 3 (by decide) Device.boot 5 9 "k".toList).1.2.1,
    (single_led_after_get_and_set 3 (by decide) Device.boot 5 9 "k".toList).1.2.2,
    (single_led_after_get_and_set 3 (by decide) Device.boot 5 9 "k".toList).2.2.2.1,
    (single_led_after_get_and_set 3 (by decide) Device.boot 5 9 "k".toList).2.2.2.2⟩

/-! ## Long messages -/

/-- C15, amended: a message of at most 78 characters is transmitted in one call, followed by
one line feed; a message of 79 characters or more is dropped, nothing is transmitted. -/
theorem send_message_line_or_drop (msg : List Char) (s : Device) :
    ((cstr msg).length ≤ 78 →
      send_message msg s = { s with uart_tx := s.uart_tx ++ [cstr msg ++ [LF]] }) ∧
    (79 ≤ (cstr msg).length → send_message msg s = s) := by
  rw [send_message_eq]
  constructor
  · intro h
    rw [if_pos (by omega)]
  · intro h
    rw [if_neg (by omega)]

theorem send_message_line_or_drop_witness :
    ((cstr "STATUS:OK,CODES:0/3".toList).length ≤ 78 ∧
      (send_message "STATUS:OK,CODES:0/3".toList Device.power_on).uart_tx
        = ["STATUS:OK,CODES:0/3\n".toList]) ∧
    (79 ≤ (cstr (List.replicate 100 'z')).length ∧
      send_message (List.replicate 100 'z') Device.power_on = Device.power_on) :=
  ⟨⟨by decide, congrArg Device.uart_tx
      ((send_message_line_or_drop "STATUS:OK,CODES:0/3".toList Device.power_on).1 (by decide))⟩,
    ⟨by decide, (send_message_line_or_drop (List.replicate 100 'z') Device.power_on).2
      (by decide)⟩⟩

set_option maxRecDepth 8000 in
/-- C15, as stated, fails: a message of 79 characters is not sent truncated, it is not sent
at all. -/
theorem long_message_dropped :
    (List.replicate 79 'a').length = 79 ∧
    (send_message (List.replicate 79 'a') Device.boot).uart_tx = Device.boot.uart_tx := by
  decide

/-! ## The BlinkOdd picture -/

theorem blink_odd_pin_blink_state (s : Device) (i : Nat) :
    (blink_odd_pin s i).blink_state = s.blink_state := by
  unfold blink_odd_pin HAL_GPIO_WritePin
  split <;> split <;> rfl

theorem blink_odd_pin_testBit (s : Device) (i j : Nat) :
    (blink_odd_pin s i).gpiob.testBit j =
      if j = i then (decide (i % 2 = 1) && decide (s.blink_state ≠ 0))
      else s.gpiob.testBit j := by
  unfold blink_odd_pin HAL_GPIO_WritePin
  by_cases hji : j = i
  · subst hji
    by_cases hodd : j % 2 = 1
    · by_cases hb : s.blink_state = 0
      · simp [hodd, hb, Nat.testBit_xor, Nat.testBit_and, Nat.one_shiftLeft,
          Nat.testBit_two_pow_self]
      · simp [hodd, hb, Nat.testBit_or, Nat.one_shiftLeft, Nat.testBit_two_pow_self]
    · simp [hodd, Nat.testBit_xor, Nat.testBit_and, Nat.one_shiftLeft,
        Nat.testBit_two_pow_self]
  · have hne : i ≠ j := fun h => hji h.symm
    by_cases hodd : i % 2 = 1
    · by_cases hb : s.blink_state = 0
      · simp [hodd, hb, hji, Nat.testBit_xor, Nat.testBit_and, Nat.one_shiftLeft,
          Nat.testBit_two_pow_of_ne hne]
      · simp [hodd, hb, hji, Nat.testBit_or, Nat.one_shiftLeft, Nat.testBit_two_pow_of_ne hne]
    · simp [hodd, hji, Nat.testBit_xor, Nat.testBit_and, Nat.one_shiftLeft,
        Nat.testBit_two_pow_of_ne hne]

/-- The loop of `leds_blink_odd` over the pins `l`: every pin of `l` is written to its
BlinkOdd value, the others keep theirs, and the phase is not touched. -/
theorem foldl_blink_odd_pin_testBit (l : List Nat) : ∀ (s : Device) (j : Nat),
    (l.foldl blink_odd_pin s).blink_state = s.blink_state ∧
    (l.foldl blink_odd_pin s).gpiob.testBit j =
      if j ∈ l then (decide (j % 2 = 1) && decide (s.blink_state ≠ 0))
      else s.gpiob.testBit j := by
  induction l with
  | nil => intro s j; simp
  | cons i l ih =>
    intro s j
    obtain ⟨h1, h2⟩ := ih (blink_odd_pin s i) j
    rw [List.foldl_cons, h1, h2, blink_odd_pin_blink_state, blink_odd_pin_testBit]
    refine ⟨rfl, ?_⟩
    by_cases hjl : j ∈ l
    · simp [hjl]
    · by_cases hji : j = i
      · subst hji; simp [hjl]
      · simp [hjl, hji]

theorem leds_blink_odd_toggle (now : Nat) (s : Device)
    (h : BLINK_INTERVAL ≤ u32_sub now s.last_toggle) :
    (leds_blink_odd now s).blink_state = lnot s.blink_state ∧
      (leds_blink_odd now s).last_toggle = now ∧ odd_pattern (leds_blink_odd now s) := by
  unfold leds_blink_odd
  rw [if_pos h]
  dsimp only
  have hf := foldl_blink_odd_pin_testBit (List.range 8)
    { s with blink_state := lnot s.blink_state }
  refine ⟨(hf 0).1, rfl, ?_⟩
  intro i hi
  show (List.foldl blink_odd_pin _ (List.range 8)).gpiob.testBit i = _
  rw [(hf i).2, if_pos (List.mem_range.mpr hi)]
  show _ = (decide (i % 2 = 1) && decide ((List.foldl blink_odd_pin _ (List.range 8)).blink_state ≠ 0))
  rw [(hf i).1]

theorem leds_blink_odd_wait (now : Nat) (s : Device)
    (h : u32_sub now s.last_toggle < BLINK_INTERVAL) : leds_blink_odd now s = s := by
  unfold leds_blink_odd
  rw [if_neg (by omega)]

theorem leds_update_blink_odd (now : Nat) (s : Device)
    (hm : s.led_mode = LED_Mode.LED_MODE_BLINK_ODD) : leds_update now s = leds_blink_odd now s := by
  unfold leds_update
  rw [hm]

theorem leds_update_odd_pattern (now : Nat) (s : Device)
    (hm : s.led_mode = LED_Mode.LED_MODE_BLINK_ODD) (hp : odd_pattern s) :
    odd_pattern (leds_update now s) := by
  rw [leds_update_blink_odd now s hm]
  by_cases h : BLINK_INTERVAL ≤ u32_sub now s.last_toggle
  · exact (leds_blink_odd_toggle now s h).2.2
  · rw [leds_blink_odd_wait now s (by omega)]
    exact hp

theorem render_all_odd_pattern (ts : List Nat) : ∀ s : Device,
    s.led_mode = LED_Mode.LED_MODE_BLINK_ODD → odd_pattern s → odd_pattern (render_all ts s) := by
  induction ts with
  | nil => intro s _ hp; exact hp
  | cons t ts ih =>
    intro s hm hp
    have hm2 : (leds_update t s).led_mode = LED_Mode.LED_MODE_BLINK_ODD := by
      rw [(leds_update_frame t s).2.1, hm]
    exact ih (leds_update t s) hm2 (leds_update_odd_pattern t s hm hp)

/-- C16, amended: in BlinkOdd mode a render step writes the LED bank only when it toggles
(`now - last_toggle ≥ 500`): after such a step LEDs 0, 2, 4, 6 are off and LEDs 1, 3, 5, 7
equal the blink phase, and this stays so after every later render step in that mode; a render
step before the first toggle leaves the bank as it was when the mode was entered. -/
theorem blink_odd_pattern_from_first_toggle (s : Device)
    (hm : s.led_mode = LED_Mode.LED_MODE_BLINK_ODD) (now : Nat) :
    (BLINK_INTERVAL ≤ u32_sub now s.last_toggle →
      odd_pattern (leds_update now s) ∧ ∀ ts, odd_pattern (render_all ts (leds_update now s))) ∧
    (u32_sub now s.last_toggle < BLINK_INTERVAL → leds_update now s = s) := by
  constructor
  · intro h
    have hp : odd_pattern (leds_update now s) := by
      rw [leds_update_blink_odd now s hm]
      exact (leds_blink_odd_toggle now s h).2.2
    have hm2 : (leds_update now s).led_mode = LED_Mode.LED_MODE_BLINK_ODD := by
      rw [(leds_update_frame now s).2.1, hm]
    exact ⟨hp, fun ts => render_all_odd_pattern ts _ hm2 hp⟩
  · intro h
    rw [leds_update_blink_odd now s hm, leds_blink_odd_wait now s h]

theorem blink_odd_pattern_from_first_toggle_witness :
    (process_command 1500 "FOO".toList Device.boot).led_mode = LED_Mode.LED_MODE_BLINK_ODD ∧
    (leds_update 1510 (process_command 1500 "FOO".toList Device.boot)).gpiob % 256 = 170 ∧
    odd_pattern (render_all [1520, 2010]
      (leds_update 1510 (process_command 1500 "FOO".toList Device.boot))) :=
  ⟨by decide, by decide,
    ((blink_odd_pattern_from_first_toggle (process_command 1500 "FOO".toList Device.boot)
      (by decide) 1510).1 (by decide)).2 [1520, 2010]⟩

/-- C16, as stated, fails: after `CONNECT` and one toggle of BlinkAll (all LEDs on), an
unknown command enters BlinkOdd, and the render step 100 ms after the toggle leaves LEDs 0, 2,
4 and 6 on. -/
theorem blink_odd_even_leds_on_before_toggle :
    (process_command 2100 "FOO".toList
      (render_all [2000] (process_command 1000 "CONNECT".toList Device.boot))).led_mode
      = LED_Mode.LED_MODE_BLINK_ODD ∧
    (leds_update 2100 (process_command 2100 "FOO".toList
      (render_all [2000] (process_command 1000 "CONNECT".toList Device.boot)))).gpiob % 256
      = 255 := by
  decide

/-! ## Elapsed time across the wrap of the clock -/

/-- C17: with `now = (last + d) mod 2^32` for an elapsed time d < 2^32, also when `now` is
numerically below `last`, `check_led_timeout` in Single mode fires exactly when d ≥ 3000 and
both blink routines toggle exactly when d ≥ 500. -/
theorem elapsed_time_wraparound_safe (last d : Nat) (hd : d < 2 ^ 32) (s : Device) :
    (s.led_mode = LED_Mode.LED_MODE_SINGLE → s.last_cmd_time = last →
      (3000 ≤ d →
        check_led_timeout ((last + d) % 2 ^ 32) s = { s with led_mode := s.idle_led_mode }) ∧
      (d < 3000 → check_led_timeout ((last + d) % 2 ^ 32) s = s)) ∧
    (s.last_toggle = last →
      (500 ≤ d →
        (leds_blink_all ((last + d) % 2 ^ 32) s).blink_state = lnot s.blink_state ∧
        (leds_blink_all ((last + d) % 2 ^ 32) s).last_toggle = (last + d) % 2 ^ 32 ∧
        (leds_blink_odd ((last + d) % 2 ^ 32) s).blink_state = lnot s.blink_state ∧
        (leds_blink_odd ((last + d) % 2 ^ 32) s).last_toggle = (last + d) % 2 ^ 32) ∧
      (d < 500 →
        leds_blink_all ((last + d) % 2 ^ 32) s = s ∧
        leds_blink_odd ((last + d) % 2 ^ 32) s = s)) := by
  constructor
  · intro hm hl
    unfold check_led_timeout
    rw [hl, u32_sub_add last d hd]
    constructor
    · intro h
      rw [if_pos ⟨hm, by simp only [CMD_TIMEOUT]; omega⟩]
    · intro h
      rw [if_neg (by simp only [CMD_TIMEOUT]; omega)]
  · intro hl
    have he : u32_sub ((last + d) % 2 ^ 32) s.last_toggle = d := by
      rw [hl, u32_sub_add last d hd]
    constructor
    · intro h
      have hge : BLINK_INTERVAL ≤ u32_sub ((last + d) % 2 ^ 32) s.last_toggle := by
        rw [he]; simp only [BLINK_INTERVAL]; omega
      have ha := leds_blink_all_toggle _ s hge
      have ho := leds_blink_odd_toggle _ s hge
      exact ⟨ha.1, ha.2.2, ho.1, ho.2.1⟩
    · intro h
      have hlt : u32_sub ((last + d) % 2 ^ 32) s.last_toggle < BLINK_INTERVAL := by
        rw [he]; simp only [BLINK_INTERVAL]; omega
      exact ⟨leds_blink_all_wait _ s hlt, leds_blink_odd_wait _ s hlt⟩

theorem elapsed_time_wraparound_safe_witness :
    (500 < 2 ^ 32 ∧ (4294967290 + 500) % 2 ^ 32 = 494 ∧
      ({ Device.boot with last_toggle := 4294967290 } : Device).last_toggle = 4294967290) ∧
    (leds_blink_all ((4294967290 + 500) % 2 ^ 32)
        { Device.boot with last_toggle := 4294967290 }).blink_state
      = lnot ({ Device.boot with last_toggle := 4294967290 } : Device).blink_state :=
  ⟨⟨by decide, by decide, rfl⟩,
    (((elapsed_time_wraparound_safe 4294967290 500 (by decide)
      { Device.boot with last_toggle := 4294967290 }).2 rfl).1 (by decide)).1⟩

/-! ## The index stays inside the buffer -/

/-- One received byte keeps the index at 63 or less and the buffer at its size. -/
theorem callback_index_bound (b : Char) (r : Rx) (hi : r.rx_index ≤ RX_BUFFER_SIZE - 1) :
    (HAL_UART_RxCpltCallback b r).rx_index ≤ RX_BUFFER_SIZE - 1 ∧
      (HAL_UART_RxCpltCallback b r).rx_buffer.length = r.rx_buffer.length := by
  unfold HAL_UART_RxCpltCallback
  split
  · split
    · exact ⟨Nat.zero_le _, List.length_set _ _ _⟩
    · exact ⟨hi, rfl⟩
  · split
    · rename_i hlt
      exact ⟨by simp only; omega, List.length_set _ _ _⟩
    · exact ⟨Nat.zero_le _, rfl⟩

theorem receive_index_bound (bytes : List Char) : ∀ r : Rx,
    r.rx_index ≤ RX_BUFFER_SIZE - 1 →
    (receive bytes r).rx_index ≤ RX_BUFFER_SIZE - 1 ∧
      (receive bytes r).rx_buffer.length = r.rx_buffer.length := by
  induction bytes with
  | nil => intro r hi; exact ⟨hi, rfl⟩
  | cons b bytes ih =>
    intro r hi
    have h1 := callback_index_bound b r hi
    have h2 := ih (HAL_UART_RxCpltCallback b r) h1.1
    rw [receive_cons]
    exact ⟨h2.1, h2.2.trans h1.2⟩

theorem rx_write_index_le (b : Char) (r : Rx) : (rx_write_index b r).getD 0 ≤ r.rx_index := by
  unfold rx_write_index
  split_ifs <;> simp

/-- The handler writes the buffer at `rx_write_index` and nowhere else. -/
theorem callback_buffer (b : Char) (r : Rx) :
    (HAL_UART_RxCpltCallback b r).rx_buffer =
      match rx_write_index b r with
      | some i => r.rx_buffer.set i (if b = CR ∨ b = LF then NUL else b)
      | none => r.rx_buffer := by
  unfold HAL_UART_RxCpltCallback rx_write_index
  split_ifs <;> rfl

/-- C18: after any sequence of bytes received from power-on the index is between 0 and 63
and the buffer still has its 64 bytes, so the write made for the next byte, whatever it is (a
data byte or the terminator, both at the index), lands inside the buffer. -/
theorem rx_index_in_bounds (bytes : List Char) (b : Char) :
    (receive bytes Rx.power_on).rx_index ≤ 63 ∧
    (receive bytes Rx.power_on).rx_buffer.length = 64 ∧
    (rx_write_index b (receive bytes Rx.power_on)).getD 0
      < (receive bytes Rx.power_on).rx_buffer.length := by
  have h := receive_index_bound bytes Rx.power_on (by decide)
  have h1 : (receive bytes Rx.power_on).rx_index ≤ 63 := h.1
  have h2 : (receive bytes Rx.power_on).rx_buffer.length = 64 := h.2.trans (by decide)
  have h3 := rx_write_index_le b (receive bytes Rx.power_on)
  exact ⟨h1, h2, by omega⟩

/-! ## A published line is not protected -/

/-- C19, amended: with L a line of m bytes (1 ≤ m ≤ 63) and P a sequence of k bytes
(1 ≤ k < m), all free of CR, LF and NUL, after L, one delimiter and then P are received from
index 0 with no consume in between, the ready flag is still set and the string in the buffer,
which the main loop copies out, is P followed by the last m - k characters of L. -/
theorem unconsumed_line_overwritten (r : Rx) (L P : List Char) (d : Char)
    (hidx : r.rx_index = 0) (hbuf : r.rx_buffer.length = RX_BUFFER_SIZE)
    (hL : 1 ≤ L.length ∧ L.length ≤ 63) (hP : 1 ≤ P.length ∧ P.length < L.length)
    (hLc : ∀ c ∈ L, c ≠ CR ∧ c ≠ LF ∧ c ≠ NUL) (hPc : ∀ c ∈ P, c ≠ CR ∧ c ≠ LF ∧ c ≠ NUL)
    (hd : d = CR ∨ d = LF) :
    (receive (L ++ [d] ++ P) r).cmd_ready = 1 ∧
    (receive (L ++ [d] ++ P) r).rx_index = P.length ∧
    cstr (receive (L ++ [d] ++ P) r).rx_buffer = P ++ L.drop P.length ∧
    ∀ previous, cstr (copy_command previous (receive (L ++ [d] ++ P) r))
      = P ++ L.drop P.length := by
  have hline := receive_line r L d hidx hbuf hL (fun c hc => ⟨(hLc c hc).1, (hLc c hc).2.1⟩) hd
  have hlen : (L ++ NUL :: r.rx_buffer.drop (L.length + 1)).length = RX_BUFFER_SIZE := by
    simp only [List.length_append, List.length_cons, List.length_drop, hbuf, RX_BUFFER_SIZE]
    omega
  have hdata := receive_data P
    { rx_buffer := L ++ NUL :: r.rx_buffer.drop (L.length + 1), rx_index := 0, cmd_ready := 1 }
    (fun c hc => ⟨(hPc c hc).1, (hPc c hc).2.1⟩)
    (by simp only [RX_BUFFER_SIZE]; omega) hlen
  have hbufeq : List.take 0 (L ++ NUL :: r.rx_buffer.drop (L.length + 1)) ++ P ++
      List.drop (0 + P.length) (L ++ NUL :: r.rx_buffer.drop (L.length + 1))
      = (P ++ L.drop P.length) ++ NUL :: r.rx_buffer.drop (L.length + 1) := by
    rw [List.take_zero, List.nil_append, Nat.zero_add, List.drop_append_of_le_length (by omega),
      List.append_assoc]
  have hcs : cstr ((P ++ L.drop P.length) ++ NUL :: r.rx_buffer.drop (L.length + 1))
      = P ++ L.drop P.length := by
    refine cstr_append_of_head ?_ List.headD_cons
    intro c hc
    rcases List.mem_append.mp hc with h | h
    · exact (hPc c h).2.2
    · exact (hLc c (List.mem_of_mem_drop h)).2.2
  rw [receive_append, hline, hdata, hbufeq]
  refine ⟨rfl, Nat.zero_add _, hcs, ?_⟩
  intro previous
  unfold copy_command
  rw [cstr_strncpy_set]
  simp only [hcs]
  apply List.take_of_length_le
  simp only [List.length_append, List.length_drop, RX_BUFFER_SIZE]
  omega

theorem unconsumed_line_overwritten_witness :
    (receive ("GET_CODE_1".toList ++ [CR] ++ "SET".toList) Rx.power_on).cmd_ready = 1 ∧
    (receive ("GET_CODE_1".toList ++ [CR] ++ "SET".toList) Rx.power_on).rx_index
      = "SET".toList.length ∧
    cstr (receive ("GET_CODE_1".toList ++ [CR] ++ "SET".toList) Rx.power_on).rx_buffer
      = "SET_CODE_1".toList ∧
    ∀ previous, cstr (copy_command previous
      (receive ("GET_CODE_1".toList ++ [CR] ++ "SET".toList) Rx.power_on))
      = "SET_CODE_1".toList :=
  unconsumed_line_overwritten Rx.power_on "GET_CODE_1".toList "SET".toList CR rfl rfl
    (by decide) (by decide) (by decide) (by decide) (Or.inl rfl)

/-- C19, as stated, fails for a NUL byte, which is not a delimiter: after `STATUS`, CR and
one NUL byte the string in the buffer is empty, not the NUL byte followed by `TATUS`. -/
theorem nul_byte_empties_published_line :
    (∀ c ∈ [NUL], c ≠ CR ∧ c ≠ LF) ∧
    (receive ("STATUS".toList ++ [CR] ++ [NUL]) Rx.power_on).cmd_ready = 1 ∧
    cstr (copy_command (List.replicate 64 NUL)
      (receive ("STATUS".toList ++ [CR] ++ [NUL]) Rx.power_on)) = [] ∧
    [NUL] ++ "STATUS".toList.drop 1 ≠ [] := by
  decide

/-! ## The separator of SET_CODE_ -/

/-- C20: for n in 1..3, any text j free of `:` placed between the slot digit and the
separator is ignored: the command `SET_CODE_<n>` j `:` v is answered `SAVED` and slot n - 1
receives the first 19 characters of v, the text after the first `:` of the command; the other
slots keep their content. -/
theorem set_code_separator_anywhere (n : Nat) (hn : 1 ≤ n ∧ n ≤ 3) (now : Nat) (s : Device)
    (j v : List Char) (hj : ∀ x ∈ j, x ≠ ':' ∧ x ≠ NUL) :
    (process_command now ("SET_CODE_".toList ++ Nat.toDigits 10 n ++ j ++ ':' :: v) s).uart_tx
      = s.uart_tx ++ ["SAVED".toList ++ [LF]] ∧
    ∀ k : Fin 3,
      (k.val = n - 1 →
        cstr ((process_command now
          ("SET_CODE_".toList ++ Nat.toDigits 10 n ++ j ++ ':' :: v) s).access_code k)
          = (cstr v).take 19) ∧
      (k.val ≠ n - 1 →
        (process_command now
          ("SET_CODE_".toList ++ Nat.toDigits 10 n ++ j ++ ':' :: v) s).access_code k
          = s.access_code k) := by
  obtain ⟨i, d, hin, hd, hdig⟩ := slot_digit n hn
  have hcmd : "SET_CODE_".toList ++ Nat.toDigits 10 n ++ j ++ ':' :: v
      = "SET_CODE_".toList ++ d :: (j ++ ':' :: v) := by rw [hdig]; simp
  rw [hcmd, set_code_effect now s i d hd j v hj]
  refine ⟨rfl, fun k => ⟨?_, ?_⟩⟩
  · intro hk
    have hki : k = i := Fin.ext (by omega)
    subst hki
    simp only [Function.update_same]
    exact cstr_strncpy_set _ _ _
  · intro hk
    have hki : k ≠ i := fun e => hk (by rw [e]; omega)
    simp only [Function.update_noteq hki]

theorem set_code_separator_anywhere_witness :
    (process_command 3 "SET_CODE_2 junk=1:a:b".toList Device.boot).uart_tx
      = ["STM Ready\n".toList, "SAVED\n".toList] ∧
    cstr ((process_command 3 "SET_CODE_2 junk=1:a:b".toList Device.boot).access_code 1)
      = "a:b".toList :=
  ⟨(set_code_separator_anywhere 2 (by decide) 3 Device.boot " junk=1".toList "a:b".toList
      (by decide)).1,
    ((set_code_separator_anywhere 2 (by decide) 3 Device.boot " junk=1".toList "a:b".toList
      (by decide)).2 1).1 rfl⟩

/-! ## Flips of the LED bank in BlinkAll -/

theorem testBit_mod_256 (x i : Nat) (hi : i < 8) : (x % 256).testBit i = x.testBit i := by
  have h256 : 256 = 2 ^ 8 := rfl
  rw [h256, Nat.testBit_mod_two_pow]
  simp [hi]

theorem decide_lnot (x : Nat) : decide (lnot x ≠ 0) = !decide (x ≠ 0) := by
  unfold lnot
  by_cases h : x = 0 <;> simp [h]

theorem bank_flips_append (ts : List Nat) : ∀ (us : List Nat) (s : Device),
    bank_flips (ts ++ us) s = bank_flips ts s + bank_flips us (render_all ts s) := by
  induction ts with
  | nil => intro us s; simp [bank_flips, render_all]
  | cons t ts ih =>
    intro us s
    rw [List.cons_append]
    simp only [bank_flips]
    rw [ih us (leds_update t s)]
    simp only [render_all, List.foldl_cons]
    omega

theorem render_all_wait_bank (ts : List Nat) (s : Device)
    (hm : s.led_mode = LED_Mode.LED_MODE_BLINK_ALL)
    (h : ∀ t ∈ ts, u32_sub t s.last_toggle < BLINK_INTERVAL) : bank_flips ts s = 0 := by
  induction ts with
  | nil => rfl
  | cons t ts ih =>
    have ht := h t (List.mem_cons_self _ _)
    have hstep : leds_update t s = s := by
      rw [leds_update_blink_all t s hm, leds_blink_all_wait t s ht]
    have := ih (fun u hu => h u (List.mem_cons_of_mem _ hu))
    simp only [bank_flips, hstep, this]
    simp

/-- A toggling step of BlinkAll leaves the bank at the new phase, and flips every LED when
the bank showed the old phase. -/
theorem leds_blink_all_flip (now : Nat) (s : Device)
    (h : BLINK_INTERVAL ≤ u32_sub now s.last_toggle) :
    all_pattern (leds_blink_all now s) ∧
    (all_pattern s →
      (∀ i, i < 8 → (leds_blink_all now s).gpiob.testBit i = !s.gpiob.testBit i) ∧
      (leds_blink_all now s).gpiob % 256 ≠ s.gpiob % 256) := by
  have ht := leds_blink_all_toggle now s h
  have hflip : all_pattern s →
      ∀ i, i < 8 → (leds_blink_all now s).gpiob.testBit i = !s.gpiob.testBit i := by
    intro hp i hi
    rw [ht.2.1 i hi, hp i hi, decide_lnot]
  refine ⟨?_, fun hp => ⟨hflip hp, ?_⟩⟩
  · intro i hi
    rw [ht.2.1 i hi, ht.1]
  · intro heq
    have h0 := hflip hp 0 (by decide)
    have h1 := congrArg (fun x => Nat.testBit x 0) heq
    simp only [testBit_mod_256 _ 0 (by decide)] at h1
    rw [h1] at h0
    cases hb : s.gpiob.testBit 0 <;> rw [hb] at h0 <;> exact absurd h0 (by decide)

/-- Once the bank shows the phase, it keeps showing it and flips at every toggle, and only
then. -/
theorem bank_flips_eq_blink_flips (ts : List Nat) : ∀ s : Device,
    s.led_mode = LED_Mode.LED_MODE_BLINK_ALL → all_pattern s →
    all_pattern (render_all ts s) ∧ bank_flips ts s = blink_flips ts s := by
  induction ts with
  | nil => intro s _ hp; exact ⟨hp, rfl⟩
  | cons t ts ih =>
    intro s hm hp
    have hm2 : (leds_update t s).led_mode = LED_Mode.LED_MODE_BLINK_ALL := by
      rw [(leds_update_frame t s).2.1, hm]
    by_cases h : BLINK_INTERVAL ≤ u32_sub t s.last_toggle
    · have hf := leds_blink_all_flip t s h
      have ht := leds_blink_all_toggle t s h
      have hp2 : all_pattern (leds_update t s) := by
        rw [leds_update_blink_all t s hm]; exact hf.1
      have := ih (leds_update t s) hm2 hp2
      refine ⟨this.1, ?_⟩
      simp only [bank_flips, blink_flips, this.2]
      rw [leds_update_blink_all t s hm, if_pos (hf.2 hp).2, ht.1, if_pos (lnot_ne_self _)]
    · have hw : leds_update t s = s := by
        rw [leds_update_blink_all t s hm, leds_blink_all_wait t s (by omega)]
      have := ih s hm hp
      simp only [render_all, List.foldl_cons, bank_flips, blink_flips, hw] at this ⊢
      exact ⟨this.1, by simp [this.2]⟩

/-- In general only the first toggle may leave the bank as it is: the bank flips at every
toggle but possibly the first. -/
theorem bank_flips_bounds (ts : List Nat) : ∀ s : Device,
    s.led_mode = LED_Mode.LED_MODE_BLINK_ALL →
    bank_flips ts s ≤ blink_flips ts s ∧ blink_flips ts s ≤ bank_flips ts s + 1 := by
  induction ts with
  | nil => intro s _; exact ⟨Nat.le_refl _, Nat.zero_le _⟩
  | cons t ts ih =>
    intro s hm
    have hm2 : (leds_update t s).led_mode = LED_Mode.LED_MODE_BLINK_ALL := by
      rw [(leds_update_frame t s).2.1, hm]
    by_cases h : BLINK_INTERVAL ≤ u32_sub t s.last_toggle
    · have hf := leds_blink_all_flip t s h
      have ht := leds_blink_all_toggle t s h
      have hp2 : all_pattern (leds_update t s) := by
        rw [leds_update_blink_all t s hm]; exact hf.1
      have := (bank_flips_eq_blink_flips ts (leds_update t s) hm2 hp2).2
      simp only [bank_flips, blink_flips, this]
      rw [leds_update_blink_all t s hm, ht.1, if_pos (lnot_ne_self _)]
      split <;> omega
    · have hw : leds_update t s = s := by
        rw [leds_update_blink_all t s hm, leds_blink_all_wait t s (by omega)]
      have := ih s hm
      simp only [bank_flips, blink_flips, hw]
      simp only [ne_eq, not_true_eq_false, if_false]
      omega

/-- C8, amended: in `BlinkAll` mode a render step at tick `now` flips the blink phase, drives
all eight LEDs to the new phase and records `now` as the toggle time exactly when
`now - last_toggle ≥ 500` (modulo 2^32); otherwise it changes nothing. Render steps inserted
less than 500 ms after the toggle preceding them change neither the final state nor the
number of flips of the bank. When the bank shows the phase (as it does after every toggle made
in this mode) a toggle flips all eight LEDs, so that the bank flips exactly once per toggle;
in general the bank flips at every toggle except possibly the first one after the mode is
entered, which drives the bank to the new phase but need not change it. -/
theorem blink_all_cadence (s : Device) (hm : s.led_mode = LED_Mode.LED_MODE_BLINK_ALL)
    (now : Nat) :
    (BLINK_INTERVAL ≤ u32_sub now s.last_toggle →
      (leds_update now s).blink_state = lnot s.blink_state ∧
      (∀ i, i < 8 →
        (leds_update now s).gpiob.testBit i = decide ((leds_update now s).blink_state ≠ 0)) ∧
      (leds_update now s).last_toggle = now ∧
      (all_pattern s →
        (∀ i, i < 8 → (leds_update now s).gpiob.testBit i = !s.gpiob.testBit i) ∧
        bank_flips [now] s = 1)) ∧
    (u32_sub now s.last_toggle < BLINK_INTERVAL →
      leds_update now s = s ∧ bank_flips [now] s = 0) ∧
    (∀ before extra after : List Nat,
      (∀ t ∈ extra, u32_sub t (render_all before s).last_toggle < BLINK_INTERVAL) →
      render_all (before ++ extra ++ after) s = render_all (before ++ after) s ∧
      bank_flips (before ++ extra ++ after) s = bank_flips (before ++ after) s) ∧
    (∀ ts : List Nat,
      (all_pattern s → bank_flips ts s = blink_flips ts s) ∧
      bank_flips ts s ≤ blink_flips ts s ∧ blink_flips ts s ≤ bank_flips ts s + 1) := by
  refine ⟨?_, ?_, ?_, ?_⟩
  · intro h
    have ht := leds_blink_all_toggle now s h
    have hf := leds_blink_all_flip now s h
    rw [leds_update_blink_all now s hm]
    refine ⟨ht.1, hf.1, ht.2.2, fun hp => ⟨(hf.2 hp).1, ?_⟩⟩
    simp only [bank_flips, leds_update_blink_all now s hm]
    rw [if_pos (hf.2 hp).2]
  · intro h
    have hw : leds_update now s = s := by
      rw [leds_update_blink_all now s hm, leds_blink_all_wait now s h]
    refine ⟨hw, ?_⟩
    simp only [bank_flips, hw]
    simp
  · intro before extra after h
    have hmode : (render_all before s).led_mode = LED_Mode.LED_MODE_BLINK_ALL := by
      rw [render_all_led_mode, hm]
    have hw := render_all_wait extra (render_all before s) hmode h
    have hb := render_all_wait_bank extra (render_all before s) hmode h
    constructor
    · rw [List.append_assoc, render_all_append, render_all_append, hw.1, ← render_all_append]
    · rw [List.append_assoc, bank_flips_append, bank_flips_append, hw.1, hb,
        bank_flips_append]
      omega
  · intro ts
    exact ⟨fun hp => (bank_flips_eq_blink_flips ts s hm hp).2, bank_flips_bounds ts s hm⟩

theorem blink_all_cadence_witness :
    (leds_update 2000 (process_command 1000 "CONNECT".toList Device.boot)).led_mode
      = LED_Mode.LED_MODE_BLINK_ALL ∧
    all_pattern (leds_update 2000 (process_command 1000 "CONNECT".toList Device.boot)) ∧
    bank_flips [2010, 2020, 2500, 2510, 2999, 3000]
        (leds_update 2000 (process_command 1000 "CONNECT".toList Device.boot))
      = blink_flips [2010, 2020, 2500, 2510, 2999, 3000]
        (leds_update 2000 (process_command 1000 "CONNECT".toList Device.boot)) ∧
    bank_flips [2010, 2020, 2500, 2510, 2999, 3000]
        (leds_update 2000 (process_command 1000 "CONNECT".toList Device.boot)) = 2 ∧
    bank_flips [2010, 2020, 2500, 2510, 2999, 3000]
        (leds_update 2000 (process_command 1000 "CONNECT".toList Device.boot))
      = bank_flips [2500, 3000]
        (leds_update 2000 (process_command 1000 "CONNECT".toList Device.boot)) :=
  ⟨by decide, by unfold all_pattern; decide,
    ((blink_all_cadence (leds_update 2000 (process_command 1000 "CONNECT".toList Device.boot))
      (by decide) 0).2.2.2 [2010, 2020, 2500, 2510, 2999, 3000]).1
      (by unfold all_pattern; decide),
    by decide,
    (((blink_all_cadence (leds_update 2000 (process_command 1000 "CONNECT".toList Device.boot))
      (by decide) 0).2.2.1 [] [2010, 2020] [2500, 2510, 2999, 3000] (by decide)).2).trans
    ((blink_all_cadence (leds_update 2000 (process_command 1000 "CONNECT".toList Device.boot))
      (by decide) 0).2.2.1 [2500] [2510, 2999] [3000] (by decide)).2⟩

/-- C8, as stated, fails at the first toggle: after `CONNECT` (all LEDs on, phase 0) the
render steps at ticks 2000 and 2500 both cross a 500 ms boundary and both flip the phase, but
the first one leaves the bank all on, so the bank flips once for two crossings. -/
theorem first_toggle_leaves_bank_on :
    (process_command 1000 "CONNECT".toList Device.boot).led_mode
      = LED_Mode.LED_MODE_BLINK_ALL ∧
    BLINK_INTERVAL ≤ u32_sub 2000 (process_command 1000 "CONNECT".toList Device.boot).last_toggle ∧
    (leds_update 2000 (process_command 1000 "CONNECT".toList Device.boot)).blink_state
      ≠ (process_command 1000 "CONNECT".toList Device.boot).blink_state ∧
    (leds_update 2000 (process_command 1000 "CONNECT".toList Device.boot)).gpiob % 256
      = (process_command 1000 "CONNECT".toList Device.boot).gpiob % 256 ∧
    blink_flips [2000, 2500] (process_command 1000 "CONNECT".toList Device.boot) = 2 ∧
    bank_flips [2000, 2500] (process_command 1000 "CONNECT".toList Device.boot) = 1 := by
  decide

/-! ## One response line per dispatched command -/

/-- The handler never stores a line feed. -/
theorem callback_no_LF (b : Char) (r : Rx) (h : ∀ c ∈ r.rx_buffer, c ≠ LF) :
    ∀ c ∈ (HAL_UART_RxCpltCallback b r).rx_buffer, c ≠ LF := by
  intro c hc
  rw [callback_buffer] at hc
  split at hc
  · rcases List.mem_or_eq_of_mem_set hc with h1 | h1
    · exact h c h1
    · rw [h1]
      by_cases hb : b = CR ∨ b = LF
      · rw [if_pos hb]; decide
      · rw [if_neg hb]
        exact fun e => hb (Or.inr e)
  · exact h c hc

theorem receive_no_LF (bytes : List Char) : ∀ r : Rx, (∀ c ∈ r.rx_buffer, c ≠ LF) →
    ∀ c ∈ (receive bytes r).rx_buffer, c ≠ LF := by
  induction bytes with
  | nil => intro r h; exact h
  | cons b bytes ih =>
    intro r h
    rw [receive_cons]
    exact ih _ (callback_no_LF b r h)

/-- The main loop leaves the buffer and the index of the receive handler alone, and when the
ready flag is set it dispatches the copy of the buffer. -/
theorem main_loop_body_dispatch (t_cmd t_led t_chk : Nat) (b : Board) :
    (main_loop_body t_cmd t_led t_chk b).rx.rx_buffer = b.rx.rx_buffer ∧
    (main_loop_body t_cmd t_led t_chk b).rx.rx_index = b.rx.rx_index ∧
    (b.rx.cmd_ready ≠ 0 →
      (main_loop_body t_cmd t_led t_chk b).dev =
        HAL_Delay 10 (check_led_timeout t_chk (leds_update t_led
          (process_command t_cmd (copy_command b.local_buffer b.rx) b.dev)))) := by
  unfold main_loop_body
  by_cases h : b.rx.cmd_ready ≠ 0
  · rw [if_pos h]
    exact ⟨rfl, rfl, fun _ => rfl⟩
  · rw [if_neg h]
    exact ⟨rfl, rfl, fun h2 => absurd h2 h⟩

/-- What the handler does to the buffer and the index does not depend on the ready flag,
which is all the main loop changes. -/
theorem receive_ready_irrelevant (bytes : List Char) : ∀ (r : Rx) (flag : Nat),
    (receive bytes { r with cmd_ready := flag }).rx_buffer = (receive bytes r).rx_buffer ∧
    (receive bytes { r with cmd_ready := flag }).rx_index = (receive bytes r).rx_index := by
  induction bytes with
  | nil => intro r flag; exact ⟨rfl, rfl⟩
  | cons b bytes ih =>
    intro r flag
    rw [receive_cons, receive_cons]
    have hstep : ∃ flag2, HAL_UART_RxCpltCallback b { r with cmd_ready := flag }
        = { HAL_UART_RxCpltCallback b r with cmd_ready := flag2 } := by
      unfold HAL_UART_RxCpltCallback
      split_ifs
      · exact ⟨1, rfl⟩
      · exact ⟨flag, rfl⟩
      · exact ⟨flag, rfl⟩
      · exact ⟨flag, rfl⟩
    obtain ⟨flag2, h2⟩ := hstep
    rw [h2]
    exact ih _ flag2

/-- Published lines are free of line feeds: the string `main` dispatches holds none. -/
theorem dispatched_line_no_LF (cmd : List Char) (h : dispatched_line cmd) : LF ∉ cstr cmd := by
  obtain ⟨bytes, previous, rfl⟩ := h
  unfold copy_command
  rw [cstr_strncpy_set]
  intro hmem
  have h1 : LF ∈ (receive bytes Rx.power_on).rx_buffer :=
    List.takeWhile_subset _ (List.mem_of_mem_take hmem)
  have h0 : ∀ c ∈ Rx.power_on.rx_buffer, c ≠ LF := by
    intro c hc
    rw [List.eq_of_mem_replicate hc]
    decide
  exact receive_no_LF bytes Rx.power_on h0 LF h1 rfl

/-- A command string free of line feeds keeps the stored codes free of line feeds. -/
theorem process_command_slot_LF (now : Nat) (cmd : List Char) (s : Device)
    (hc : LF ∉ cstr cmd) (h : ∀ i, LF ∉ cstr (s.access_code i)) :
    ∀ i, LF ∉ cstr ((process_command now cmd s).access_code i) := by
  intro i
  rcases process_command_access_code now cmd s with e | ⟨k, v, hv, e⟩
  · rw [e]; exact h i
  · rw [e]
    by_cases hik : i = k
    · subst hik
      rw [Function.update_same, cstr_strncpy_set]
      intro hmem
      exact hc (mem_of_strchr ':' (by decide) cmd v hv LF (List.mem_of_mem_take hmem))
    · rw [Function.update_noteq hik]; exact h i

theorem boot_slots_empty (i : Fin 3) : cstr (Device.boot.access_code i) = [] := by
  fin_cases i <;> rfl

theorem dispatch_all_slot_bound (cmds : List (Nat × List Char)) : ∀ s : Device,
    (∀ i, (cstr (s.access_code i)).length ≤ 19) →
    ∀ i, (cstr ((dispatch_all cmds s).access_code i)).length ≤ 19 := by
  induction cmds with
  | nil => intro s h; exact h
  | cons c cmds ih =>
    intro s h
    exact ih (process_command c.1 c.2 s) (process_command_slot_bound c.1 c.2 s h)

theorem dispatch_all_slot_LF (cmds : List (Nat × List Char)) : ∀ s : Device,
    (∀ c ∈ cmds, LF ∉ cstr c.2) → (∀ i, LF ∉ cstr (s.access_code i)) →
    ∀ i, LF ∉ cstr ((dispatch_all cmds s).access_code i) := by
  induction cmds with
  | nil => intro s _ h; exact h
  | cons c cmds ih =>
    intro s hc h
    exact ih (process_command c.1 c.2 s) (fun x hx => hc x (List.mem_cons_of_mem _ hx))
      (process_command_slot_LF c.1 c.2 s (hc c (List.mem_cons_self _ _)) h)

theorem toDigits_small (k : Nat) (hk : k ≤ 3) :
    (Nat.toDigits 10 k).length = 1 ∧ LF ∉ Nat.toDigits 10 k := by
  interval_cases k <;> decide

/-- C10: in every state reachable from the start of the main loop by any sequence of
commands as `main` dispatches them (copies of the receive buffer, which never holds a line
feed), every command string causes exactly one transmission, made of a response text free of
line feeds followed by one line feed; the text is one of the fixed answers, a `STATUS` line or
the complete `CODE_<n>:<code>` line, at most 26 characters, so the length guard of
`send_message` never suppresses it (every stored code stays at most 19 characters). -/
theorem one_response_line (cmds : List (Nat × List Char))
    (hpub : ∀ c ∈ cmds, dispatched_line c.2) (now : Nat) (cmd : List Char) :
    ∃ resp : List Char,
      (process_command now cmd (dispatch_all cmds Device.boot)).uart_tx
        = (dispatch_all cmds Device.boot).uart_tx ++ [resp ++ [LF]] ∧
      LF ∉ resp ∧ resp.length ≤ 26 ∧
      (resp ∈ ["OK".toList, "BYE".toList, "SAVED".toList, "ERR:INVALID_SLOT".toList,
          "ERR:INVALID_FORMAT".toList, "ERR:UNKNOWN_CMD".toList] ∨
        (∃ k, k ≤ 3 ∧ resp = "STATUS:OK,CODES:".toList ++ Nat.toDigits 10 k ++ "/3".toList) ∨
        (∃ i : Fin 3, resp = "CODE_".toList ++ Nat.toDigits 10 (i.val + 1) ++
          ':' :: cstr ((dispatch_all cmds Device.boot).access_code i))) ∧
      (∀ i, (cstr ((dispatch_all cmds Device.boot).access_code i)).length ≤ 19) := by
  have hb := dispatch_all_slot_bound cmds Device.boot
    (fun i => by rw [boot_slots_empty]; exact Nat.zero_le _)
  have hlf : ∀ i, LF ∉ cstr ((dispatch_all cmds Device.boot).access_code i) :=
    dispatch_all_slot_LF cmds Device.boot (fun c hc => dispatched_line_no_LF c.2 (hpub c hc))
      (fun i => by rw [boot_slots_empty]; exact List.not_mem_nil _)
  have hfixed : ∀ r ∈ ["OK".toList, "BYE".toList, "SAVED".toList, "ERR:INVALID_SLOT".toList,
      "ERR:INVALID_FORMAT".toList, "ERR:UNKNOWN_CMD".toList], r.length ≤ 26 ∧ LF ∉ r := by
    decide
  have hcode : ∀ i : Fin 3, ("CODE_".toList ++ Nat.toDigits 10 (i.val + 1) ++
      ':' :: cstr ((dispatch_all cmds Device.boot).access_code i)).length ≤ 26 := by
    intro i
    obtain ⟨d, -, hdig, -⟩ := slot_digit_of_index i
    have := hb i
    have h5 : "CODE_".toList.length = 5 := rfl
    simp only [hdig, List.length_append, List.length_cons, List.length_nil]
    omega
  obtain ⟨resp, htx, hr⟩ := process_command_response now cmd (dispatch_all cmds Device.boot)
  have hfull : ∀ i : Fin 3, ("CODE_".toList ++ Nat.toDigits 10 (i.val + 1) ++
      ':' :: cstr ((dispatch_all cmds Device.boot).access_code i)).take 49
      = "CODE_".toList ++ Nat.toDigits 10 (i.val + 1) ++
      ':' :: cstr ((dispatch_all cmds Device.boot).access_code i) :=
    fun i => List.take_of_length_le (Nat.le_trans (hcode i) (by decide))
  refine ⟨resp, htx, ?_, ?_, ?_, hb⟩
  · rcases hr with h | ⟨k, hk, h⟩ | ⟨i, h⟩
    · exact (hfixed resp h).2
    · rw [h]
      have := (toDigits_small k hk).2
      simp only [List.mem_append, not_or]
      exact ⟨⟨by decide, this⟩, by decide⟩
    · rw [h, hfull]
      obtain ⟨d, -, hdig, hd⟩ := slot_digit_of_index i
      rw [hdig]
      simp only [List.mem_append, List.mem_cons, List.mem_singleton, List.not_mem_nil,
        or_false, not_or]
      exact ⟨⟨by decide, fun e => hd e.symm⟩, by decide, hlf i⟩
  · rcases hr with h | ⟨k, hk, h⟩ | ⟨i, h⟩
    · exact (hfixed resp h).1
    · have := (toDigits_small k hk).1
      have h1 : "STATUS:OK,CODES:".toList.length = 16 := rfl
      have h2 : "/3".toList.length = 2 := rfl
      rw [h]
      simp only [List.length_append]
      omega
    · rw [h, hfull]
      exact hcode i
  · rcases hr with h | h | ⟨i, h⟩
    · exact Or.inl h
    · exact Or.inr (Or.inl h)
    · exact Or.inr (Or.inr ⟨i, by rw [h, hfull]⟩)

theorem one_response_line_witness :
    dispatched_line (copy_command [] (receive "SET_CODE_1:abc\r".toList Rx.power_on)) ∧
    cstr (copy_command [] (receive "SET_CODE_1:abc\r".toList Rx.power_on))
      = "SET_CODE_1:abc".toList ∧
    ∃ resp : List Char,
      (process_command 3 "GET_CODE_1".toList
        (dispatch_all [(1, copy_command [] (receive "SET_CODE_1:abc\r".toList Rx.power_on))]
          Device.boot)).uart_tx
        = (dispatch_all [(1, copy_command [] (receive "SET_CODE_1:abc\r".toList Rx.power_on))]
          Device.boot).uart_tx ++ [resp ++ [LF]] ∧
      LF ∉ resp ∧ resp.length ≤ 26 :=
  ⟨⟨_, _, rfl⟩, by decide,
    (one_response_line
      [(1, copy_command [] (receive "SET_CODE_1:abc\r".toList Rx.power_on))]
      (fun c hc => by
        rw [List.mem_singleton] at hc
        rw [hc]
        exact ⟨_, _, rfl⟩)
      3 "GET_CODE_1".toList).imp
      (fun _ h => ⟨h.1, h.2.1, h.2.2.1⟩)⟩

end DongleLock
